import Mathlib

/-!
Verification of the InvokeLens SDK core against its specification.

This file gives a shallow embedding, in Lean 4, of the runtime subsystems of
the `invokelens_sdk` Python package — the trace/span collector
(`tracing.py`), the cost estimator (`cost.py`), the prompt fingerprint
(`fingerprint.py`), the sliding-window rate tracker and TTL status cache
(`status.py`), the HTTP flush loop of the transport (`transport.py`), the
tool-span wrapper (`client.py`), and the invocation wrapper
(`decorators.py`) — together with theorems settling the spec's claims.

Modelling conventions, used throughout:
* Python `str` values that the code slices or truncates are embedded as
  `List Char`; identifier-like strings (names, status words) stay `String`.
* Python `float` literals are embedded as exact rationals (`Rat`); Python
  `round(x, 8)` is round-half-to-even on rationals.
* Clock reads (`time.monotonic()`, `datetime.now()`) are explicit numeric
  parameters supplied by the caller of each embedded operation.
* `uuid.uuid4()` freshness is modelled by a per-context counter: each new
  span draws the next id, so distinct creations get distinct ids.
* Calls to external systems (HTTP, the queue) and to user-supplied code are
  oracles: their outcomes are inputs of type `Except`/inductive results, and
  the embedding mirrors exactly the `try`/`except` structure of the source.
-/

namespace InvokeLens


/-! ### Cost estimator (`cost.py`) -/

/-- One pricing row of `MODEL_PRICING`: USD per 1,000 input/output tokens. -/
structure Pricing where
  inputRate : Rat
  outputRate : Rat
  deriving DecidableEq, Repr

/-- The `_default` row of `MODEL_PRICING` in `cost.py`. -/
def defaultPricing : Pricing := ⟨3/1000, 15/1000⟩

/-- The static `MODEL_PRICING` table from `cost.py`, float literals embedded
as the exact decimal rationals they denote. -/
def MODEL_PRICING : List (String × Pricing) :=
  [("anthropic.claude-3-5-sonnet", ⟨3/1000, 15/1000⟩),
   ("anthropic.claude-3-sonnet", ⟨3/1000, 15/1000⟩),
   ("anthropic.claude-3-haiku", ⟨25/100000, 125/100000⟩),
   ("anthropic.claude-3-opus", ⟨15/1000, 75/1000⟩),
   ("amazon.titan-text-lite-v1", ⟨3/10000, 4/10000⟩),
   ("amazon.titan-text-express-v1", ⟨8/10000, 16/10000⟩),
   ("meta.llama3-70b-instruct-v1", ⟨265/100000, 35/10000⟩),
   ("meta.llama3-8b-instruct-v1", ⟨3/10000, 6/10000⟩),
   ("mistral.mistral-large", ⟨4/1000, 12/1000⟩),
   ("mistral.mistral-small", ⟨1/1000, 3/1000⟩),
   ("cohere.command-r-plus-v1", ⟨3/1000, 15/1000⟩),
   ("_default", ⟨3/1000, 15/1000⟩)]

/-- Python `round` ties-to-even applied to an exact rational, yielding the
nearest integer. -/
def roundHalfEven (q : Rat) : Int :=
  let f := ⌊q⌋
  let r := q - (f : Rat)
  if r < 1/2 then f
  else if (1 : Rat)/2 < r then f + 1
  else if f % 2 = 0 then f else f + 1

/-- Python `round(x, 8)` on an exact rational. -/
def round8 (q : Rat) : Rat := ((roundHalfEven (q * 100000000) : Rat)) / 100000000

/-- `cost.estimate_cost`: resolve pricing through the custom-override map,
then the static table, then `_default`; charge per 1,000 tokens; round to 8
decimals.  The process-wide `_custom_pricing` dict is passed explicitly. -/
def estimate_cost (customPricing : List (String × Pricing)) (model_id : String)
    (input_tokens output_tokens : Nat) : Rat :=
  let pricing :=
    match customPricing.lookup model_id with
    | some p => p
    | none =>
      match MODEL_PRICING.lookup model_id with
      | some p => p
      | none => defaultPricing
  round8 ((input_tokens : Rat) / 1000 * pricing.inputRate
    + (output_tokens : Rat) / 1000 * pricing.outputRate)

/-! ### Trace/span collector (`tracing.py`) -/

/-- `tracing.MAX_IO_LENGTH`. -/
def MAX_IO_LENGTH : Nat := 2000

/-- `tracing.MAX_SPANS_PER_TRACE`. -/
def MAX_SPANS_PER_TRACE : Nat := 100

/-- The literal suffix `...[truncated]` appended by `tracing._truncate`. -/
def truncMarker : List Char := "...[truncated]".data

/-- `tracing._truncate` on a present string: keep strings of length at most
`max_len`; otherwise keep the first `max_len - 14` characters and append the
14-character marker. -/
def truncateStr (value : List Char) (maxLen : Nat := MAX_IO_LENGTH) : List Char :=
  if value.length ≤ maxLen then value
  else value.take (maxLen - 14) ++ truncMarker

/-- `tracing._truncate` including the `None` passthrough. -/
def truncateOpt (value : Option (List Char)) (maxLen : Nat := MAX_IO_LENGTH) :
    Option (List Char) :=
  match value with
  | none => none
  | some v => some (truncateStr v maxLen)

/-- The `Span` pydantic model from `tracing.py`.  Wall-clock timestamps are
natural numbers; `span_id` is the creation counter standing in for
`uuid4()`. -/
structure Span where
  span_id : Nat
  parent_span_id : Option Nat := none
  span_type : String := "custom"
  name : String := ""
  started_at : Nat := 0
  ended_at : Option Nat := none
  duration_ms : Int := 0
  input : Option (List Char) := none
  output : Option (List Char) := none
  status : String := "OK"
  error : Option (List Char) := none
  model_id : Option String := none
  input_tokens : Nat := 0
  output_tokens : Nat := 0
  estimated_cost_usd : Rat := 0
  deriving DecidableEq, Repr

/-- `TraceContext` state: the stored span list, the active (parent) stack of
span ids with its top at the end — Python appends and inspects `[-1]` — and
the id counter. -/
structure TraceContext where
  spans : List Span := []
  active_stack : List Nat := []
  next_span_id : Nat := 0
  deriving DecidableEq, Repr

/-- `TraceContext.start_span`: once `MAX_SPANS_PER_TRACE` spans are stored,
return a detached span (fresh id, no parent) and record nothing; otherwise
create a span parented to the top of the active stack, append it to the
store and push its id. -/
def TraceContext.start_span (ctx : TraceContext) (name : String)
    (span_type : String := "custom") (input : Option (List Char) := none)
    (model_id : Option String := none) (now : Nat := 0) : Span × TraceContext :=
  if MAX_SPANS_PER_TRACE ≤ ctx.spans.length then
    ({ span_id := ctx.next_span_id, name := name, span_type := span_type,
       started_at := now, input := truncateOpt input, model_id := model_id },
     { ctx with next_span_id := ctx.next_span_id + 1 })
  else
    let span : Span :=
      { span_id := ctx.next_span_id,
        parent_span_id := ctx.active_stack.getLast?,
        name := name, span_type := span_type, started_at := now,
        input := truncateOpt input, model_id := model_id }
    (span,
     { ctx with
       spans := ctx.spans ++ [span],
       active_stack := ctx.active_stack ++ [span.span_id],
       next_span_id := ctx.next_span_id + 1 })

/-- The keyword arguments of `TraceContext.end_span`. -/
structure EndArgs where
  output : Option (List Char) := none
  status : String := "OK"
  error : Option (List Char) := none
  input_tokens : Nat := 0
  output_tokens : Nat := 0
  model_id : Option String := none
  deriving DecidableEq, Repr

/-- Python truthiness of an optional model-id string (`None` and the empty
string are falsy). -/
def modelIdTruthy : Option String → Bool
  | some m => m ≠ ""
  | none => false

/-- The `if model_id:` update of `end_span`: keep the old model id unless a
truthy (non-empty) one is supplied. -/
def resolveModelId (old : Option String) (supplied : Option String) : Option String :=
  match supplied with
  | some m => if m = "" then old else some m
  | none => old

/-- The in-place mutation `end_span` performs on the span object: set
`ended_at`, truncate and store the output, copy status/error/tokens, resolve
the model id, recompute `duration_ms`, and set the cost iff a truthy model
id and a nonzero token count are present. -/
def Span.finalize (span : Span) (a : EndArgs)
    (customPricing : List (String × Pricing)) (now : Nat) : Span :=
  let mid : Option String := resolveModelId span.model_id a.model_id
  let s1 : Span :=
    { span with
      ended_at := some now,
      output := truncateOpt a.output,
      status := a.status,
      error := a.error,
      input_tokens := a.input_tokens,
      output_tokens := a.output_tokens,
      model_id := mid,
      duration_ms := (now : Int) - (span.started_at : Int) }
  if modelIdTruthy s1.model_id && (a.input_tokens != 0 || a.output_tokens != 0) then
    { s1 with estimated_cost_usd :=
        estimate_cost customPricing (s1.model_id.getD "") a.input_tokens a.output_tokens }
  else s1

/-- `TraceContext.end_span`: finalize the span object (stored spans alias it,
so the stored copy with the same id is updated too), and pop the active stack
iff its top is this span's id. -/
def TraceContext.end_span (ctx : TraceContext) (span : Span) (a : EndArgs := {})
    (customPricing : List (String × Pricing) := []) (now : Nat := 0) :
    Span × TraceContext :=
  let s := span.finalize a customPricing now
  let spans := ctx.spans.map (fun t => if t.span_id = span.span_id then s else t)
  let stack :=
    if ctx.active_stack.getLast? = some span.span_id
    then ctx.active_stack.dropLast else ctx.active_stack
  (s, { ctx with spans := spans, active_stack := stack })

/-- Well-formedness of a trace context: every id already in the store or on
the stack is below the freshness counter (true of every reachable context, by
construction of `start_span`). -/
def TraceContext.Wf (ctx : TraceContext) : Prop :=
  (∀ s ∈ ctx.spans, s.span_id < ctx.next_span_id) ∧
  ∀ i ∈ ctx.active_stack, i < ctx.next_span_id

/-- A concrete trace context holding exactly `MAX_SPANS_PER_TRACE` spans with
a non-empty active stack, used to witness the overflow behaviour. -/
def fullCtx : TraceContext :=
  { spans := (List.range 100).map (fun i => { span_id := i, name := "s" }),
    active_stack := [99],
    next_span_id := 100 }

/-! ### Prompt fingerprint (`fingerprint.py`)

The SHA-256 primitive is out of the core (the spec treats it as an external
collaborator), so hashing is a parameter `hash : List Char → List Char`
standing for `hexdigest ∘ sha256 ∘ utf8-encode`; collision-freedom of the
real primitive appears as an injectivity hypothesis where the spec needs
hashes of distinct inputs to differ.  `str.strip`/`str.lower`/`\w` are
modelled at ASCII granularity. -/

/-- Python whitespace as tested by `str.strip` and `str.split` (ASCII part). -/
def isPySpace (c : Char) : Bool :=
  c = ' ' || c = '\t' || c = '\n' || c = '\r' || c = '\x0b' || c = '\x0c'

/-- Python `str.strip()`. -/
def pyStrip (s : List Char) : List Char :=
  ((s.dropWhile isPySpace).reverse.dropWhile isPySpace).reverse

/-- Python `str.lower()` (ASCII model). -/
def pyLower (s : List Char) : List Char := s.map Char.toLower

/-- First character of a `{name}` placeholder: `[a-zA-Z_]`. -/
def isIdentStart (c : Char) : Bool := c.isAlpha || c = '_'

/-- Continuation character of a placeholder: `\w` (ASCII model). -/
def isWordChar (c : Char) : Bool := c.isAlphanum || c = '_'

/-- Match the regex tail `([a-zA-Z_]\w*)\}` against the characters following
an opening `{`; on success return the captured identifier and the characters
after the closing `}`. -/
def matchVar (l : List Char) : Option (List Char × List Char) :=
  match l with
  | [] => none
  | c :: cs =>
    if isIdentStart c then
      match cs.dropWhile isWordChar with
      | '}' :: rest => some (c :: cs.takeWhile isWordChar, rest)
      | _ => none
    else none

/-- Left-to-right scan replacing each `{identifier}` placeholder with the
five characters `{VAR}` — the effect of `_TEMPLATE_VAR_RE.sub("{VAR}", s)`.
The fuel argument, always called with at least the list length, makes the
recursion structural; every step consumes at least one character. -/
def substVarsGo : Nat → List Char → List Char
  | 0, _ => []
  | _ + 1, [] => []
  | fuel + 1, c :: rest =>
    if c = '{' then
      match matchVar rest with
      | some (_, restAfter) =>
        '{' :: 'V' :: 'A' :: 'R' :: '}' :: substVarsGo fuel restAfter
      | none => c :: substVarsGo fuel rest
    else c :: substVarsGo fuel rest

/-- `_TEMPLATE_VAR_RE.sub("{VAR}", l)`. -/
def substVars (l : List Char) : List Char := substVarsGo l.length l

/-- `_TEMPLATE_VAR_RE.findall`, same scan collecting the captured names. -/
def findVarsGo : Nat → List Char → List (List Char)
  | 0, _ => []
  | _ + 1, [] => []
  | fuel + 1, c :: rest =>
    if c = '{' then
      match matchVar rest with
      | some (name, restAfter) => name :: findVarsGo fuel restAfter
      | none => findVarsGo fuel rest
    else findVarsGo fuel rest

/-- `_TEMPLATE_VAR_RE.findall l`. -/
def findVars (l : List Char) : List (List Char) := findVarsGo l.length l

/-- Python `str.split()` with no separator: split on whitespace runs,
dropping empty fields.  Fuel as in `substVarsGo`. -/
def pySplitGo : Nat → List Char → List (List Char)
  | 0, _ => []
  | fuel + 1, l =>
    match l.dropWhile isPySpace with
    | [] => []
    | c :: cs =>
      ((c :: cs).takeWhile (fun d => !isPySpace d)) ::
        pySplitGo fuel ((c :: cs).dropWhile (fun d => !isPySpace d))

/-- Python `str.split()`. -/
def pySplit (l : List Char) : List (List Char) := pySplitGo (l.length + 1) l

/-- Lexicographic order on character lists, as Python `sorted` uses on
strings. -/
def lexLe : List Char → List Char → Bool
  | [], _ => true
  | _ :: _, [] => false
  | a :: as, b :: bs => if a < b then true else if b < a then false else lexLe as bs

/-- Insertion step of the sort used to model Python `sorted`. -/
def insertVar (x : List Char) : List (List Char) → List (List Char)
  | [] => [x]
  | y :: ys => if lexLe x y then x :: y :: ys else y :: insertVar x ys

/-- Python `sorted` on a list of strings (insertion sort; stable, total). -/
def sortVars (l : List (List Char)) : List (List Char) := l.foldr insertVar []

/-- `strip` + `lower` normalisation applied before hashing. -/
def pyNormalize (s : List Char) : List Char := pyLower (pyStrip s)

/-- The prompt skeleton: normalisation followed by placeholder replacement. -/
def skeleton (s : List Char) : List Char := substVars (pyNormalize s)

/-- The fingerprint dict produced by `fingerprint.compute_fingerprint`. -/
structure Fingerprint where
  prompt_hash : List Char
  structure_hash : List Char
  char_count : Nat
  word_count : Nat
  line_count : Nat
  template_vars : List (List Char)
  deriving DecidableEq, Repr

/-- `fingerprint.compute_fingerprint`: the falsy (empty) prompt yields hashes
of the empty input and zero counts; otherwise hash the normalised prompt, hash
its skeleton, and collect counts and the sorted set of placeholder names. -/
def compute_fingerprint (hash : List Char → List Char) (prompt : List Char) :
    Fingerprint :=
  if prompt = [] then
    { prompt_hash := hash [], structure_hash := hash [],
      char_count := 0, word_count := 0, line_count := 0, template_vars := [] }
  else
    let normalized := pyNormalize prompt
    { prompt_hash := hash normalized,
      structure_hash := hash (substVars normalized),
      char_count := prompt.length,
      word_count := (pySplit prompt).length,
      line_count := prompt.count '\n' + 1,
      template_vars := sortVars (findVars prompt).dedup }

/-- One `1 - |va - vb| / max` term of the metric comparison. -/
def metricScore (va vb : Nat) : Rat :=
  if max va vb = 0 then 1
  else 1 - |(va : Rat) - (vb : Rat)| / ((max va vb : Nat) : Rat)

/-- `fingerprint.compute_similarity`.  (The `not a or not b` guard of the
source only fires on falsy inputs — `None` or an empty dict — which
`compute_fingerprint` never produces, so the modelled domain starts at the
hash comparison.) -/
def compute_similarity (a b : Fingerprint) : Rat :=
  if a.prompt_hash = b.prompt_hash then 1
  else if a.structure_hash = b.structure_hash then 9/10
  else
    let rs := [metricScore a.char_count b.char_count,
               metricScore a.word_count b.word_count,
               metricScore a.line_count b.line_count]
    max 0 (min 1 (rs.sum / 3))

/-! ### Guardrail policies, rate tracker, status cache (`status.py`) -/

/-- The recognized keys of a policy's `conditions` dict (`decorators.py`
reads them with `.get` and per-key defaults; an absent key is `none` here,
except `estimated_input_tokens` whose `.get` default `0` is inlined). -/
structure PolicyConditions where
  max_cost_usd : Option Rat := none
  max_tokens : Option Nat := none
  estimated_input_tokens : Nat := 0
  max_invocations : Option Nat := none
  window_minutes : Option Nat := none
  allowed_hours_utc : Option (List Nat) := none
  deriving DecidableEq, Repr

/-- A policy record as received from the backend (`policy_id` is read with
default `"unknown"`, `policy_type` with default `""`, `enforcement` with
default `"BLOCK"`). -/
structure Policy where
  policy_id : Option String := none
  policy_type : String := ""
  enforcement : String := "BLOCK"
  conditions : PolicyConditions := {}
  deriving DecidableEq, Repr

deriving instance DecidableEq for Except

/-- Replace-or-append update of an association list, modelling a Python dict
store `d[k] = v`. -/
def setAssoc {β : Type} (k : String) (v : β) : List (String × β) → List (String × β)
  | [] => [(k, v)]
  | (k2, v2) :: rest => if k2 = k then (k2, v) :: rest else (k2, v2) :: setAssoc k v rest

/-- `status._RateLimitTracker` state: per-agent monotonic timestamps
(seconds, embedded as integers). -/
structure RateTracker where
  counts : List (String × List Int) := []
  deriving DecidableEq, Repr

/-- `self._counts.get(agent_id, [])`. -/
def RateTracker.get (tr : RateTracker) (agent : String) : List Int :=
  (tr.counts.lookup agent).getD []

/-- `record_invocation`: append the current monotonic time. -/
def RateTracker.record_invocation (tr : RateTracker) (agent : String) (now : Int) :
    RateTracker :=
  { counts := setAssoc agent (tr.get agent ++ [now]) tr.counts }

/-- `count_in_window`: prune timestamps at or before `now - window_seconds`,
write the pruned list back, and return its length. -/
def RateTracker.count_in_window (tr : RateTracker) (agent : String)
    (window_seconds : Int) (now : Int) : RateTracker × Nat :=
  let cutoff := now - window_seconds
  let kept := (tr.get agent).filter (fun t => cutoff < t)
  ({ counts := setAssoc agent kept tr.counts }, kept.length)

/-- `status.DEFAULT_STATUS_TTL_SECONDS`. -/
def DEFAULT_STATUS_TTL_SECONDS : Nat := 10

/-- `status._CacheEntry`: cached status, reason and policies with a
monotonic expiry deadline. -/
structure CacheEntry where
  status : String
  blocked_reason : Option String
  policies : List Policy
  expires_at : Nat
  deriving DecidableEq, Repr

/-- `status.AgentStatusChecker` state. -/
structure AgentStatusChecker where
  endpoint_url : String := ""
  api_key : String := ""
  ttl : Nat := DEFAULT_STATUS_TTL_SECONDS
  cache : List (String × CacheEntry) := []
  deriving DecidableEq, Repr

/-- The parsed JSON body of `GET /agents/id/status`; `none` fields model
absent keys, read back with the `.get` defaults of `_fetch_status`. -/
structure StatusBody where
  status : Option String := none
  blocked_reason : Option String := none
  policies : Option (List Policy) := none
  deriving DecidableEq, Repr

/-- An HTTP response to the status request; `body = none` models a body on
which `response.json()` raises. -/
structure StatusResponse where
  status_code : Nat
  body : Option StatusBody := none
  deriving DecidableEq, Repr

/-- Outcome of the `httpx.get` call in `_fetch_status`: a response, or the
call itself raising (network error, timeout, DNS failure). -/
inductive FetchResult where
  | response (r : StatusResponse)
  | netError
  deriving DecidableEq, Repr

/-- `AgentStatusChecker._fetch_status`: a raised network error or a failed
JSON parse propagate as exceptions (`.error`); a non-200 status code yields
the `("ACTIVE", None, [])` triple; a 200 response is parsed with defaults. -/
def fetchStatus : FetchResult → Except Unit (String × Option String × List Policy)
  | .netError => .error ()
  | .response r =>
    if r.status_code ≠ 200 then .ok ("ACTIVE", none, [])
    else
      match r.body with
      | none => .error ()
      | some data =>
        .ok (data.status.getD "ACTIVE", data.blocked_reason, data.policies.getD [])

/-- `AgentStatusChecker._fetch_and_cache`: fetch, then insert a cache entry
expiring at `now + ttl`; an exception from the fetch propagates and the cache
is left untouched. -/
def AgentStatusChecker.fetch_and_cache (c : AgentStatusChecker) (agent : String)
    (now : Nat) (fetch : FetchResult) : Except Unit AgentStatusChecker :=
  match fetchStatus fetch with
  | .error e => .error e
  | .ok (status, reason, policies) =>
    .ok { c with cache := setAssoc agent ⟨status, reason, policies, now + c.ttl⟩ c.cache }

/-- The cache consultation shared by `is_blocked` and `get_policies`: a fresh
entry is returned with no fetch; otherwise `_fetch_and_cache` runs — on its
exception the caller's fail-open default applies (`none` here) and the cache
is unchanged; on success the just-inserted entry is re-read.  The boolean
records whether an HTTP GET was performed. -/
def AgentStatusChecker.consult (c : AgentStatusChecker) (agent : String)
    (now : Nat) (fetch : FetchResult) :
    Option CacheEntry × AgentStatusChecker × Bool :=
  let freshHit :=
    match c.cache.lookup agent with
    | some entry => if now < entry.expires_at then some entry else none
    | none => none
  match freshHit with
  | some entry => (some entry, c, false)
  | none =>
    match c.fetch_and_cache agent now fetch with
    | .error _ => (none, c, true)
    | .ok c2 => (c2.cache.lookup agent, c2, true)

/-- `AgentStatusChecker.is_blocked`: `(status == "BLOCKED", reason)` from the
fresh or just-fetched entry, `(False, None)` fail-open on any error. -/
def AgentStatusChecker.is_blocked (c : AgentStatusChecker) (agent : String)
    (now : Nat) (fetch : FetchResult) :
    (Bool × Option String) × AgentStatusChecker × Bool :=
  let r := c.consult agent now fetch
  ((match r.1 with
    | some entry => (entry.status == "BLOCKED", entry.blocked_reason)
    | none => (false, none)), r.2)

/-- `AgentStatusChecker.get_policies`: the entry's policies, `[]` fail-open. -/
def AgentStatusChecker.get_policies (c : AgentStatusChecker) (agent : String)
    (now : Nat) (fetch : FetchResult) :
    List Policy × AgentStatusChecker × Bool :=
  let r := c.consult agent now fetch
  ((match r.1 with
    | some entry => entry.policies
    | none => []), r.2)

/-- The 201 response used against the "any 2xx is parsed" claim. -/
def resp201 : StatusResponse :=
  { status_code := 201,
    body := some { status := some "BLOCKED", blocked_reason := some "manual",
                   policies := some [] } }

/-! ### Backend-call counting for the cache-freshness claim -/

/-- Which cached read operation a caller performs. -/
inductive ReadOp where
  | isBlocked
  | getPolicies
  deriving DecidableEq, Repr

/-- One read against the status checker: the operation, the monotonic time of
the call, and the backend's behaviour should an HTTP GET be made. -/
structure ReadCall where
  op : ReadOp
  time : Nat
  fetch : FetchResult
  deriving DecidableEq, Repr

/-- Run one read, returning the new checker state and whether an HTTP GET was
performed. -/
def readStep (c : AgentStatusChecker) (agent : String) (rc : ReadCall) :
    AgentStatusChecker × Bool :=
  match rc.op with
  | .isBlocked =>
    ((c.is_blocked agent rc.time rc.fetch).2.1, (c.is_blocked agent rc.time rc.fetch).2.2)
  | .getPolicies =>
    ((c.get_policies agent rc.time rc.fetch).2.1, (c.get_policies agent rc.time rc.fetch).2.2)

/-- Run a sequence of reads, counting performed HTTP GETs. -/
def runReads (c : AgentStatusChecker) (agent : String) :
    List ReadCall → AgentStatusChecker × Nat
  | [] => (c, 0)
  | rc :: rest =>
    let s := readStep c agent rc
    let r := runReads s.1 agent rest
    (r.1, (if s.2 then 1 else 0) + r.2)

/-- The call times at which an HTTP GET was performed. -/
def fetchTimes (c : AgentStatusChecker) (agent : String) :
    List ReadCall → List Nat
  | [] => []
  | rc :: rest =>
    let s := readStep c agent rc
    if s.2 then rc.time :: fetchTimes s.1 agent rest else fetchTimes s.1 agent rest

/-- The expiry deadline currently cached for an agent (0 when absent). -/
def cacheBound (c : AgentStatusChecker) (agent : String) : Nat :=
  match c.cache.lookup agent with
  | some e => e.expires_at
  | none => 0

/-! ### Transport HTTP flush (`transport.py`) -/

/-- `transport.MAX_RETRIES`. -/
def MAX_RETRIES : Nat := 3

/-- `transport.INITIAL_BACKOFF_SECONDS` (1.0 s). -/
def INITIAL_BACKOFF_SECONDS : Nat := 1

/-- `transport.BACKOFF_MULTIPLIER` (2.0). -/
def BACKOFF_MULTIPLIER : Nat := 2

/-- Outcome of one `httpx.post` attempt in `_flush_http`: a response with a
status code, or the call raising (network error, timeout, DNS failure). -/
inductive AttemptOutcome where
  | response (status_code : Nat)
  | exc
  deriving DecidableEq, Repr

/-- The `for attempt in range(MAX_RETRIES + 1)` loop of `_flush_http`, from
attempt index `i` with `remaining` iterations left (the top-level call has
`remaining + i = MAX_RETRIES + 1`) and the current `backoff`.  Returns the
number of POST attempts performed and the sleeps, in seconds, in order.  A
status `< 400` is success; `400 ≤ status < 500` is a permanent client error;
both return at once.  A 5xx or a raised exception falls through to the
backoff sleep — performed only while `attempt < MAX_RETRIES`, exactly as in
the source — before the next iteration. -/
def flushLoop (outcomes : Nat → AttemptOutcome) :
    Nat → Nat → Nat → Nat × List Nat
  | 0, _, _ => (0, [])
  | remaining + 1, i, backoff =>
    let retry : Nat × List Nat :=
      if i < MAX_RETRIES then
        let rest := flushLoop outcomes remaining (i + 1) (backoff * BACKOFF_MULTIPLIER)
        (rest.1 + 1, backoff :: rest.2)
      else (1, [])
    match outcomes i with
    | .response code =>
      if code < 400 then (1, [])
      else if code < 500 then (1, [])
      else retry
    | .exc => retry

/-- `EventTransport._flush_http` for one batch: attempts indexed from 0, the
backend's behaviour per attempt given by `outcomes`. -/
def flush_http (outcomes : Nat → AttemptOutcome) : Nat × List Nat :=
  flushLoop outcomes (MAX_RETRIES + 1) 0 INITIAL_BACKOFF_SECONDS

/-! ### Invocation wrapper (`decorators.py`) -/

/-- The violation dict returned by `_evaluate_pre_invocation_policies`. -/
structure ViolationInfo where
  policy_id : String
  policy_type : String
  message : String
  deriving DecidableEq, Repr

/-- Python `f"{x:.4f}"` on a nonnegative exact rational: round half-to-even
to 4 decimals and render with a zero-padded fractional part. -/
def format4 (q : Rat) : String :=
  let n := (roundHalfEven (q * 10000)).toNat
  let frac := toString (n % 10000)
  toString (n / 10000) ++ "." ++
    String.mk (List.replicate (4 - frac.length) '0') ++ frac

/-- The configuration held by an `ObserveDecorator` instance.  The
constructor's `model_id or "unknown"` default is already resolved into the
field; `has_status_checker` models `status_checker is not None`. -/
structure ObserveDecorator where
  agent_id : String
  agent_name : Option String := none
  model_id : String := "unknown"
  api_key : String := ""
  sdk_version : String := ""
  has_status_checker : Bool := true
  deriving DecidableEq, Repr

/-- `ObserveDecorator._estimate_typical_cost`: 500 input + 200 output tokens
at the configured model. -/
def ObserveDecorator.estimate_typical_cost (dec : ObserveDecorator)
    (customPricing : List (String × Pricing)) : Rat :=
  estimate_cost customPricing dec.model_id 500 200

/-- One iteration of the policy loop in
`_evaluate_pre_invocation_policies`: the violation message (or none) for a
single policy, together with the rate tracker as mutated by
`count_in_window`.  Absent condition keys default to `float("inf")` bounds,
which no finite value exceeds, hence the `none ⇒ no violation` branches;
`window_minutes` defaults to 60 and `allowed_hours_utc` to `[0, 24]`. -/
def evalOnePolicy (dec : ObserveDecorator) (customPricing : List (String × Pricing))
    (now : Int) (currentHour : Nat) (tracker : RateTracker) (policy : Policy) :
    Option String × RateTracker :=
  if policy.enforcement ≠ "BLOCK" then (none, tracker)
  else if policy.policy_type = "COST_CAP" then
    match policy.conditions.max_cost_usd with
    | none => (none, tracker)
    | some maxCost =>
      let estimated := dec.estimate_typical_cost customPricing
      if maxCost < estimated then
        (some ("Estimated invocation cost $" ++ format4 estimated
          ++ " exceeds cap $" ++ format4 maxCost), tracker)
      else (none, tracker)
  else if policy.policy_type = "TOKEN_LIMIT" then
    match policy.conditions.max_tokens with
    | none => (none, tracker)
    | some maxTokens =>
      let est := policy.conditions.estimated_input_tokens
      if est ≠ 0 ∧ maxTokens < est then
        (some ("Estimated tokens " ++ toString est
          ++ " exceeds limit " ++ toString maxTokens), tracker)
      else (none, tracker)
  else if policy.policy_type = "RATE_LIMIT" then
    let window_minutes := policy.conditions.window_minutes.getD 60
    let window_seconds : Int := (window_minutes : Int) * 60
    let res := tracker.count_in_window dec.agent_id window_seconds now
    match policy.conditions.max_invocations with
    | none => (none, res.1)
    | some maxInv =>
      if maxInv ≤ res.2 then
        (some ("Rate limit exceeded: " ++ toString res.2 ++ " invocations in last "
          ++ toString window_minutes ++ " minutes (limit: " ++ toString maxInv ++ ")"),
         res.1)
      else (none, res.1)
  else if policy.policy_type = "TIME_RESTRICTION" then
    let allowed := policy.conditions.allowed_hours_utc.getD [0, 24]
    let allowedStart := allowed.getD 0 0
    let allowedEnd := allowed.getD 1 24
    if ¬ (allowedStart ≤ currentHour ∧ currentHour < allowedEnd) then
      (some ("Invocation outside allowed hours: current=" ++ toString currentHour
        ++ ":00 UTC, allowed=" ++ toString allowedStart ++ ":00-"
        ++ toString allowedEnd ++ ":00 UTC"), tracker)
    else (none, tracker)
  else (none, tracker)

/-- `ObserveDecorator._evaluate_pre_invocation_policies`: first matching
BLOCK-enforced policy wins; LOG policies and unknown types never block. -/
def evalPolicies (dec : ObserveDecorator) (customPricing : List (String × Pricing))
    (now : Int) (currentHour : Nat) :
    RateTracker → List Policy → Option ViolationInfo × RateTracker
  | tracker, [] => (none, tracker)
  | tracker, policy :: rest =>
    let r := evalOnePolicy dec customPricing now currentHour tracker policy
    match r.1 with
    | some msg =>
      (some { policy_id := policy.policy_id.getD "unknown",
              policy_type := policy.policy_type, message := msg }, r.2)
    | none => evalPolicies dec customPricing now currentHour r.2 rest

/-- A Python value as harvested from the user's response dict by
`_extract_tokens` / `_extract_model_id`: those helpers catch their own
probing errors but return whatever the dict holds, unchecked — an int (the
well-typed case), a string, or `None` as representative ill-typed cases.
Integer values are embedded as naturals (the spec constrains token counts to
be non-negative). -/
inductive PyScalar where
  | int (n : Nat)
  | str (s : String)
  | noneV
  deriving DecidableEq, Repr

/-- Python truthiness of a harvested scalar: `0`, `""` and `None` are
falsy. -/
def pyTruthy : PyScalar → Bool
  | .int n => n ≠ 0
  | .str s => s ≠ ""
  | .noneV => false

/-- Is the scalar an `int` (the only values `x / 1000` accepts without a
`TypeError` among the modelled cases)? -/
def pyIsInt : PyScalar → Bool
  | .int _ => true
  | _ => false

/-- Is the scalar a `str` (what pydantic's `model_id: str` field accepts)? -/
def pyIsStr : PyScalar → Bool
  | .str _ => true
  | _ => false

/-- The integer value of a scalar known to be an `int`. -/
def pyToNat : PyScalar → Nat
  | .int n => n
  | _ => 0

/-- The string value of a scalar known to be a `str`. -/
def pyToStr : PyScalar → String
  | .str s => s
  | _ => ""

/-- Exceptions that can escape the wrapper produced by
`ObserveDecorator.__call__`.  `σ` is the type of SDK-internal exceptions
raised by the oracles (status checker, fingerprint primitive, rate tracker,
transport); `ε` is the type of exceptions raised by the user function;
`pyError` is an exception raised by the SDK's own unprotected code in the
`finally` block (the `TypeError` of `estimate_cost` arithmetic on ill-typed
harvested token values, or the validation error of the `TelemetryEvent`
constructor on a non-string model id). -/
inductive WrapErr (σ ε : Type) where
  | agentBlocked (agent_id : String) (reason : Option String)
  | policyViolation (agent_id : String) (v : ViolationInfo)
  | user (e : ε)
  | sdk (s : σ)
  | pyError (msg : String)
  deriving DecidableEq

/-- The `TelemetryEvent` assembled in the wrapper's `finally` block
(`schema.py` fields populated by `decorators.py`; fresh uuid/schema-constant
fields elided). -/
structure TelemetryEvent where
  event_type : String
  api_key : String
  agent_id : String
  agent_name : Option String
  model_id : String
  region : String
  started_at : Nat
  ended_at : Nat
  duration_ms : Int
  input_tokens : Nat
  output_tokens : Nat
  estimated_cost_usd : Rat
  status : String
  error_message : Option (List Char)
  error_type : Option String
  tools_called : List String
  prompt_summary : Option (List Char)
  prompt_fingerprint : Option Fingerprint
  spans : List Span
  sdk_version : String
  deriving DecidableEq, Repr

/-- Everything one invocation of the wrapped function observes from the
outside world: oracle outcomes for each fallible SDK step, the clock values
read, and the user function's behaviour.  The `extract…`/`bedrock…` fields
are the duck-typed probes of `_extract_tokens`, `_extract_model_id` and
`_extract_bedrock_trace` as functions of the untyped response:
`extractTokens` and `extractModelId` return raw dict values (`PyScalar`),
unchecked, exactly as the source helpers do — their well-typedness is a
property of the user's response, not of the SDK. -/
structure CallEnv (σ ε ρ : Type) where
  statusCheck : Except σ (Bool × Option String)
  getPolicies : Except σ (List Policy)
  tracker : RateTracker
  rateNow : Int
  currentHour : Nat
  customPricing : List (String × Pricing)
  region : String
  wallStart : Nat
  wallEnd : Nat
  durationMs : Int
  userResult : Except ε ρ
  extractTokens : ρ → PyScalar × PyScalar
  extractModelId : ρ → PyScalar
  bedrockLlmSteps : ρ → List (String × List Char × List Char × Option String)
  bedrockToolSteps : ρ → List (String × List Char × List Char)
  promptText : Option (List Char)
  hash : List Char → List Char
  fingerprintRaises : Option σ
  strOfExc : ε → List Char
  excTypeName : ε → String
  recordResult : Except σ Unit
  sendResult : Except σ Unit
  funcName : String

/-- The `with trace.span(...)` context manager over a body that only assigns
`s.output` and cannot raise (the harvesting bodies of
`_extract_bedrock_trace`): start, assign the output, end with the span's own
fields. -/
def TraceContext.spanScope (ctx : TraceContext) (name : String) (span_type : String)
    (input : Option (List Char)) (model_id : Option String)
    (output : Option (List Char)) (customPricing : List (String × Pricing))
    (nowS nowE : Nat) : TraceContext :=
  let r := ctx.start_span name span_type input model_id nowS
  let s := { r.1 with output := output }
  let a : EndArgs :=
    { output := s.output, status := s.status, error := s.error,
      input_tokens := s.input_tokens, output_tokens := s.output_tokens,
      model_id := s.model_id }
  (r.2.end_span s a customPricing nowE).2

/-- `ObserveDecorator._extract_bedrock_trace`: an `llm` span per model
invocation step (input and output sliced to 2000 characters in the source)
and a `tool` span per action-group invocation. -/
def addBedrockSpans (trace : TraceContext) (cp : List (String × Pricing)) (now : Nat)
    (llm : List (String × List Char × List Char × Option String))
    (tool : List (String × List Char × List Char)) : TraceContext :=
  let t1 := llm.foldl (fun t step =>
    t.spanScope step.1 "llm" (some (step.2.1.take 2000)) step.2.2.2
      (some (step.2.2.1.take 2000)) cp now now) trace
  tool.foldl (fun t step =>
    t.spanScope step.1 "tool" (some step.2.1) none (some step.2.2) cp now now) t1

/-- The observable outcome of one call through the wrapper: the
returned-or-raised result, whether the user function was invoked, the events
passed to `transport.send`, those actually enqueued (`send` may raise), the
rate-tracker state afterwards, and the trace built for the invocation. -/
structure WrapOutcome (σ ε ρ : Type) where
  result : Except (WrapErr σ ε) ρ
  userInvoked : Bool
  sendCalls : List TelemetryEvent
  enqueued : List TelemetryEvent
  tracker : RateTracker
  trace : TraceContext

/-- Phase 1 of the wrapper body — the kill-switch check with its
`except AgentBlockedError: raise` / `except Exception: pass` structure: a
definite `(True, reason)` from `is_blocked` raises; everything else,
including an exception from the status checker, falls through (fail open). -/
def killSwitchOutcome {σ ε ρ : Type} (dec : ObserveDecorator) (env : CallEnv σ ε ρ) :
    Option (WrapErr σ ε) :=
  if dec.has_status_checker then
    match env.statusCheck with
    | .ok (true, reason) => some (.agentBlocked dec.agent_id reason)
    | .ok (false, _) => none
    | .error _ => none
  else none

/-- Phase 2 of the wrapper body — policy evaluation with its
`except PolicyViolationError: raise` / `except Exception: pass` structure: a
violation raises; an exception from `get_policies` falls through with the
tracker untouched (fail open). -/
def policyOutcome {σ ε ρ : Type} (dec : ObserveDecorator) (env : CallEnv σ ε ρ) :
    Option ViolationInfo × RateTracker :=
  if dec.has_status_checker then
    match env.getPolicies with
    | .ok policies =>
      evalPolicies dec env.customPricing env.rateNow env.currentHour env.tracker policies
    | .error _ => (none, env.tracker)
  else (none, env.tracker)

/-- Phases 3–5 of the wrapper body: trace setup, user invocation, and the
`finally` harvest — root span ended with the harvested tokens and model,
provider trace harvested into child spans, fingerprint computed inside its
own `try`, the telemetry event assembled, the invocation recorded in the
rate tracker inside its own `try`, and the event passed to `send` inside its
own `try`.  The user's result or exception is returned unchanged — *unless*
the `finally` block itself raises: it is not wrapped in any `try`, and the
harvested token/model values are raw dict contents.  In source order, the
raise points are (1) the cost computation inside `end_span` when its
truthiness guard fires on a non-int token value (`x / 1000` raises
`TypeError`), (2) the unconditional `estimate_cost` in the event assembly on
a non-int token value, and (3) the `TelemetryEvent` constructor's validation
of a non-string model id.  A raise in the `finally` replaces the user's
result or exception, skips the rate recording and the send, and surfaces to
the caller.  (The partially mutated trace on a raise path is not tracked
further; no claim refers to it.) -/
def invokePhase {σ ε ρ : Type} (dec : ObserveDecorator) (env : CallEnv σ ε ρ)
    (tracker : RateTracker) : WrapOutcome σ ε ρ :=
  let r0 := TraceContext.start_span {} env.funcName "chain" none none env.wallStart
  let rootSpan := r0.1
  let trace1 := r0.2
  let status := match env.userResult with | .ok _ => "SUCCESS" | .error _ => "FAILURE"
  let error_message : Option (List Char) :=
    match env.userResult with
    | .ok _ => none
    | .error e => some ((env.strOfExc e).take 500)
  let error_type : Option String :=
    match env.userResult with
    | .ok _ => none
    | .error e => some (env.excTypeName e)
  let result? : Option ρ := match env.userResult with | .ok r => some r | .error _ => none
  let tokRaw : PyScalar × PyScalar :=
    match result? with | some r => env.extractTokens r | none => (.int 0, .int 0)
  let rawModel : PyScalar :=
    match result? with | some r => env.extractModelId r | none => .noneV
  let resolvedModel : PyScalar :=
    if pyTruthy rawModel then rawModel else .str dec.model_id
  if pyTruthy resolvedModel && (pyTruthy tokRaw.1 || pyTruthy tokRaw.2)
      && !(pyIsInt tokRaw.1 && pyIsInt tokRaw.2) then
    { result := .error (.pyError "TypeError in estimate_cost during end_span"),
      userInvoked := true, sendCalls := [], enqueued := [], tracker := tracker,
      trace := trace1 }
  else if !(pyIsInt tokRaw.1 && pyIsInt tokRaw.2) then
    { result := .error (.pyError "TypeError in estimate_cost during event assembly"),
      userInvoked := true, sendCalls := [], enqueued := [], tracker := tracker,
      trace := trace1 }
  else if !(pyIsStr resolvedModel) then
    { result := .error (.pyError "ValidationError in TelemetryEvent construction"),
      userInvoked := true, sendCalls := [], enqueued := [], tracker := tracker,
      trace := trace1 }
  else
  let tok : Nat × Nat := (pyToNat tokRaw.1, pyToNat tokRaw.2)
  let model_id : String := pyToStr resolvedModel
  let trace2 := (trace1.end_span rootSpan
    { output := none,
      status := if status ≠ "SUCCESS" then "ERROR" else "OK",
      error := error_message,
      input_tokens := tok.1, output_tokens := tok.2,
      model_id := some model_id } env.customPricing env.wallEnd).2
  let trace3 :=
    match result? with
    | some r => addBedrockSpans trace2 env.customPricing env.wallEnd
        (env.bedrockLlmSteps r) (env.bedrockToolSteps r)
    | none => trace2
  let tool_names := (trace3.spans.filter (fun s => s.span_type == "tool")).map (fun s => s.name)
  let fpPair : Option Fingerprint × Option (List Char) :=
    match env.promptText with
    | some p =>
      if p ≠ [] then
        match env.fingerprintRaises with
        | none => (some (compute_fingerprint env.hash p), some (p.take 500))
        | some _ => (none, none)
      else (none, none)
    | none => (none, none)
  let event : TelemetryEvent :=
    { event_type := "invocation." ++ (if status = "SUCCESS" then "completed" else "failed"),
      api_key := dec.api_key,
      agent_id := dec.agent_id,
      agent_name := dec.agent_name,
      model_id := model_id,
      region := env.region,
      started_at := env.wallStart,
      ended_at := env.wallEnd,
      duration_ms := env.durationMs,
      input_tokens := tok.1,
      output_tokens := tok.2,
      estimated_cost_usd := estimate_cost env.customPricing model_id tok.1 tok.2,
      status := status,
      error_message := error_message,
      error_type := error_type,
      tools_called := tool_names,
      prompt_summary := fpPair.2,
      prompt_fingerprint := fpPair.1,
      spans := trace3.spans,
      sdk_version := dec.sdk_version }
  let tracker2 :=
    match env.recordResult with
    | .ok _ => tracker.record_invocation dec.agent_id env.rateNow
    | .error _ => tracker
  let enq :=
    match env.sendResult with
    | .ok _ => [event]
    | .error _ => []
  { result :=
      (match env.userResult with
       | .ok r => .ok r
       | .error e => .error (.user e)),
    userInvoked := true,
    sendCalls := [event],
    enqueued := enq,
    tracker := tracker2,
    trace := trace3 }

/-- The wrapper returned by `ObserveDecorator.__call__`, as a function of the
call environment. -/
def wrapperRun {σ ε ρ : Type} (dec : ObserveDecorator) (env : CallEnv σ ε ρ) :
    WrapOutcome σ ε ρ :=
  match killSwitchOutcome dec env with
  | some err =>
    { result := .error err, userInvoked := false, sendCalls := [], enqueued := [],
      tracker := env.tracker, trace := {} }
  | none =>
    let pol := policyOutcome dec env
    match pol.1 with
    | some v =>
      { result := .error (.policyViolation dec.agent_id v), userInvoked := false,
        sendCalls := [], enqueued := [], tracker := pol.2, trace := {} }
    | none => invokePhase dec env pol.2

/-- Well-typedness of the response harvest: whenever the user function
returns, the harvested token values are ints and the resolved model id
(`extract or self.model_id`) is a string.  This is the exact condition under
which the unprotected `finally` block of the wrapper cannot raise. -/
def harvestWellTyped {σ ε ρ : Type} (dec : ObserveDecorator)
    (env : CallEnv σ ε ρ) : Prop :=
  ∀ r, env.userResult = .ok r →
    pyIsInt (env.extractTokens r).1 = true ∧
    pyIsInt (env.extractTokens r).2 = true ∧
    pyIsStr (if pyTruthy (env.extractModelId r) then env.extractModelId r
             else .str dec.model_id) = true

/-- Decorator configuration for the fail-safety counterexample. -/
def c1Dec : ObserveDecorator := { agent_id := "agent-1" }

/-- Call environment for the fail-safety counterexample: every oracle is
healthy and the user function returns normally, but its response dict holds
a *string* input-token count — `{"usage": {"inputTokens": "100"}}` — so
`_extract_tokens` hands `("100", 0)` to the `finally` block. -/
def c1Env : CallEnv Unit (List Char) Nat :=
  { statusCheck := .ok (false, none),
    getPolicies := .ok [],
    tracker := {},
    rateNow := 0,
    currentHour := 0,
    customPricing := [],
    region := "us-east-1",
    wallStart := 0,
    wallEnd := 1,
    durationMs := 1000,
    userResult := .ok 7,
    extractTokens := fun _ => (.str "100", .int 0),
    extractModelId := fun _ => .noneV,
    bedrockLlmSteps := fun _ => [],
    bedrockToolSteps := fun _ => [],
    promptText := none,
    hash := id,
    fingerprintRaises := none,
    strOfExc := fun e => e,
    excTypeName := fun _ => "Exception",
    recordResult := .ok (),
    sendResult := .ok (),
    funcName := "ask_agent" }

/-- The checker, environment and decorator used to witness the kill-switch
preemption claim. -/
def blockedChecker : AgentStatusChecker :=
  { ttl := 10, cache := [("agent-1", ⟨"BLOCKED", some "manual", [], 100⟩)] }

/-- Decorator configuration for the kill-switch witness. -/
def c2Dec : ObserveDecorator := { agent_id := "agent-1" }

/-- Call environment for the kill-switch witness: the status check returns
what `is_blocked` reports on the fresh BLOCKED entry. -/
def c2Env : CallEnv Unit (List Char) Nat :=
  { statusCheck := .ok (blockedChecker.is_blocked "agent-1" 5 .netError).1,
    getPolicies := .ok [],
    tracker := {},
    rateNow := 5,
    currentHour := 0,
    customPricing := [],
    region := "us-east-1",
    wallStart := 0,
    wallEnd := 1,
    durationMs := 1000,
    userResult := .ok 7,
    extractTokens := fun _ => (.int 0, .int 0),
    extractModelId := fun _ => .noneV,
    bedrockLlmSteps := fun _ => [],
    bedrockToolSteps := fun _ => [],
    promptText := none,
    hash := id,
    fingerprintRaises := none,
    strOfExc := fun e => e,
    excTypeName := fun _ => "Exception",
    recordResult := .ok (),
    sendResult := .ok (),
    funcName := "ask_agent" }

/-- The single rate-limit policy of the S4 scenario. -/
def rateLimitPolicy (pid : String) (m w : Nat) : Policy :=
  { policy_id := some pid, policy_type := "RATE_LIMIT", enforcement := "BLOCK",
    conditions := { max_invocations := some m, window_minutes := some w } }

/-- Decorator for the rate-limit witness. -/
def rlDec : ObserveDecorator := { agent_id := "agent-1" }

/-- Call environment for the S4 rate-limit scenario at time `t` with tracker
state `tr`: one BLOCK-enforced RATE_LIMIT policy, `max_invocations = 2`,
`window_minutes = 60`. -/
def rlEnv (tr : RateTracker) (t : Int) : CallEnv Unit (List Char) Nat :=
  { statusCheck := .ok (false, none),
    getPolicies := .ok [rateLimitPolicy "pol-1" 2 60],
    tracker := tr,
    rateNow := t,
    currentHour := 0,
    customPricing := [],
    region := "us-east-1",
    wallStart := 0,
    wallEnd := 1,
    durationMs := 1000,
    userResult := .ok 1,
    extractTokens := fun _ => (.int 0, .int 0),
    extractModelId := fun _ => .noneV,
    bedrockLlmSteps := fun _ => [],
    bedrockToolSteps := fun _ => [],
    promptText := none,
    hash := id,
    fingerprintRaises := none,
    strOfExc := fun e => e,
    excTypeName := fun _ => "Exception",
    recordResult := .ok (),
    sendResult := .ok (),
    funcName := "ask_agent" }

/-! ### Tool-span wrapper (`client.py`, `InvokeLensClient.trace_tool`) -/

/-- Python values as they appear among a tool call's keyword arguments; the
wrapper only ever inspects whether the value under `trace` is a
`TraceContext` instance. -/
inductive PyVal where
  | noneV
  | str (s : List Char)
  | traceCtx (t : TraceContext)
  | intV (n : Int)
  deriving DecidableEq, Repr

/-- A user tool function: its name, the parameter names its signature
accepts, and its behaviour on the keyword arguments it receives (raising a
user exception carries the exception's string).  Positional arguments,
passed through unchanged by the wrapper, are elided. -/
structure PyFunc (ρ : Type) where
  name : String
  params : List String
  run : List (String × PyVal) → Except (List Char) ρ

/-- How a direct call of a tool function can fail: Python raises `TypeError`
when a keyword argument's name is not among the function's parameters;
otherwise the function body runs and may raise. -/
inductive CallErr where
  | typeError
  | raised (msg : List Char)
  deriving DecidableEq, Repr

/-- Python call semantics for keyword arguments: every supplied name must be
accepted by the signature, else `TypeError` before the body runs. -/
def pyCall {ρ : Type} (f : PyFunc ρ) (kwargs : List (String × PyVal)) :
    Except CallErr ρ :=
  if kwargs.all (fun kv => f.params.contains kv.1) then
    (f.run kwargs).mapError CallErr.raised
  else .error .typeError

/-- The observable outcome of one call through the `trace_tool` wrapper. -/
structure ToolCallResult (ρ : Type) where
  result : Except CallErr ρ
  passedKwargs : List (String × PyVal)
  trace : Option TraceContext

/-- The wrapper produced by `client.trace_tool(name, span_type)` applied to
one call: read `kwargs.get("trace")`; if it is not a `TraceContext`, call the
function with the kwargs unchanged and no tracing; otherwise run the call
inside `trace.span(tool_name, span_type)`, capture
`str(result)[:2000]` as the span output (`None` results excepted), and let
an exception end the span with `status="ERROR"` before propagating.  In both
branches the kwargs — `trace` included — are forwarded unchanged. -/
def trace_tool_call {ρ : Type} (name : Option String) (span_type : String)
    (f : PyFunc ρ) (toStr : ρ → List Char) (isNone : ρ → Bool)
    (cp : List (String × Pricing)) (nowS nowE : Nat)
    (kwargs : List (String × PyVal)) : ToolCallResult ρ :=
  let tool_name := name.getD f.name
  match kwargs.lookup "trace" with
  | some (.traceCtx t) =>
    let r0 := t.start_span tool_name span_type none none nowS
    let s := r0.1
    let t1 := r0.2
    (match pyCall f kwargs with
     | .ok result =>
       let out : Option (List Char) :=
         if isNone result then none else some ((toStr result).take 2000)
       let s2 := { s with output := out }
       let a : EndArgs :=
         { output := s2.output, status := s2.status, error := s2.error,
           input_tokens := s2.input_tokens, output_tokens := s2.output_tokens,
           model_id := s2.model_id }
       { result := .ok result, passedKwargs := kwargs,
         trace := some (t1.end_span s2 a cp nowE).2 }
     | .error e =>
       let emsg : List Char :=
         match e with
         | .typeError => "unexpected keyword argument".data
         | .raised msg => msg
       let a : EndArgs :=
         { output := none, status := "ERROR", error := some emsg,
           input_tokens := s.input_tokens, output_tokens := s.output_tokens,
           model_id := s.model_id }
       { result := .error e, passedKwargs := kwargs,
         trace := some (t1.end_span s a cp nowE).2 })
  | _ => { result := pyCall f kwargs, passedKwargs := kwargs, trace := none }

/-- `str` on the modelled Python values. -/
def pyValStr : PyVal → List Char
  | .noneV => "None".data
  | .str s => s
  | .traceCtx _ => "TraceContext".data
  | .intV n => (toString n).data

/-- `result is None` on the modelled Python values. -/
def pyValIsNone (v : PyVal) : Bool := v == .noneV

/-- A tool function whose signature does not accept `trace`. -/
def toolFuncNoTrace : PyFunc PyVal :=
  { name := "search", params := ["query"], run := fun _ => .ok (.str "ok".data) }

/-- A tool function whose signature accepts `trace`. -/
def toolFuncWithTrace : PyFunc PyVal :=
  { name := "search", params := ["query", "trace"],
    run := fun _ => .ok (.str "result".data) }

/-- The kwargs of the trace-tool counterexample: a real `TraceContext` under
`trace` plus one ordinary argument. -/
def toolKwargsNoTrace : List (String × PyVal) :=
  [("query", .str "q".data), ("trace", .traceCtx {})]

/-- The kwargs for the trace-tool witness: the tool accepts `trace` and the
caller passes a `TraceContext`. -/
def toolKwargsWithTrace : List (String × PyVal) :=
  [("query", .str "q".data), ("trace", .traceCtx {})]

/-! ### Theorems settling the claims, with their supporting lemmas and witnesses -/

/-- C7 (counterexample): the claim's "ends with the suffix iff truncation
occurred" fails in the only-if direction — the 14-character input that *is*
the suffix is returned unchanged (no truncation happened, its length is well
under `MAX_IO_LENGTH`), yet the stored value ends with the suffix. -/
theorem truncate_suffix_iff_cex :
    truncateStr truncMarker = truncMarker ∧
    truncMarker.length ≤ MAX_IO_LENGTH ∧
    truncateStr truncMarker = [] ++ truncMarker := by
  decide

/-- C7 (amended): for every string `s`, `_truncate s` has length at most
`MAX_IO_LENGTH = 2000`; when `s` is longer than 2000 the result is exactly
2000 characters — the first 1986 characters of `s` followed by the
`...[truncated]` marker, so it ends with the marker; and when no truncation
occurs the value is stored unchanged.  (The converse "ends with the suffix
only if truncated" does not hold; see the counterexample.) -/
theorem truncate_spec (s : List Char) :
    (truncateStr s).length ≤ MAX_IO_LENGTH ∧
    (MAX_IO_LENGTH < s.length →
      (truncateStr s).length = MAX_IO_LENGTH ∧
      truncateStr s = s.take (MAX_IO_LENGTH - 14) ++ truncMarker) ∧
    (s.length ≤ MAX_IO_LENGTH → truncateStr s = s) := by
  have hm : truncMarker.length = 14 := by decide
  by_cases h : s.length ≤ MAX_IO_LENGTH
  · refine ⟨?_, fun hgt => absurd hgt (by omega), fun _ => ?_⟩
    · simp [truncateStr, h]
    · simp [truncateStr, h]
  · have h2000 : 2000 < s.length := by
      simpa [MAX_IO_LENGTH] using Nat.lt_of_not_le h
    have hrw : truncateStr s = s.take (MAX_IO_LENGTH - 14) ++ truncMarker := by
      simp [truncateStr, h]
    have hlen : (truncateStr s).length = MAX_IO_LENGTH := by
      rw [hrw]
      rw [List.length_append, List.length_take, hm]
      show min (MAX_IO_LENGTH - 14) s.length + 14 = MAX_IO_LENGTH
      rw [MAX_IO_LENGTH] at *
      omega
    exact ⟨le_of_eq hlen, fun _ => ⟨hlen, hrw⟩, fun hle => absurd hle h⟩

/-- C7 witness: a 2001-character input is cut to exactly 2000 characters,
namely 1986 kept characters plus the suffix. -/
theorem truncate_spec_witness :
    MAX_IO_LENGTH < (List.replicate 2001 'a').length ∧
    (truncateStr (List.replicate 2001 'a')).length = MAX_IO_LENGTH ∧
    truncateStr (List.replicate 2001 'a') = List.replicate 1986 'a' ++ truncMarker := by
  have hlen : MAX_IO_LENGTH < (List.replicate 2001 'a').length := by
    rw [List.length_replicate]
    decide
  have h := truncate_spec (List.replicate 2001 'a')
  refine ⟨hlen, (h.2.1 hlen).1, ?_⟩
  rw [(h.2.1 hlen).2]
  rw [show MAX_IO_LENGTH - 14 = 1986 from rfl, List.take_replicate]
  rw [show min 1986 2001 = 1986 from rfl]

/-- Membership extracted from a `getLast?` hit. -/
theorem mem_of_getLast?_eq {α : Type} {l : List α} {x : α}
    (h : l.getLast? = some x) : x ∈ l := by
  obtain ⟨hne, rfl⟩ := List.mem_getLast?_eq_getLast (Option.mem_def.mpr h)
  exact List.getLast_mem hne

/-- The frame part of `end_span`: when the ended span's id appears neither in
the store nor at the top of the active stack, neither changes. -/
theorem end_span_frame (ctx : TraceContext) (span : Span) (a : EndArgs)
    (cp : List (String × Pricing)) (n : Nat)
    (hspans : ∀ t ∈ ctx.spans, t.span_id ≠ span.span_id)
    (hstack : ctx.active_stack.getLast? ≠ some span.span_id) :
    (ctx.end_span span a cp n).2.spans = ctx.spans ∧
    (ctx.end_span span a cp n).2.active_stack = ctx.active_stack := by
  constructor
  · show ctx.spans.map
      (fun t => if t.span_id = span.span_id then span.finalize a cp n else t) = ctx.spans
    have heach : ∀ t ∈ ctx.spans,
        (if t.span_id = span.span_id then span.finalize a cp n else t) = t :=
      fun t ht => if_neg (hspans t ht)
    rw [List.map_congr_left heach]
    exact List.map_id ctx.spans
  · show (if ctx.active_stack.getLast? = some span.span_id
      then ctx.active_stack.dropLast else ctx.active_stack) = ctx.active_stack
    exact if_neg hstack

/-- C10: in a well-formed trace context already storing
`MAX_SPANS_PER_TRACE = 100` spans, `start_span` returns a detached span with
no parent — whatever the active stack holds — and changes neither the stored
span list nor the active stack; a subsequent `end_span` on that detached span
again leaves both untouched, and produces exactly the finalized copy of the
detached span. -/
theorem span_overflow_frame (ctx : TraceContext) (hwf : ctx.Wf)
    (hfull : ctx.spans.length = MAX_SPANS_PER_TRACE)
    (name ty : String) (inp : Option (List Char)) (mid : Option String)
    (a : EndArgs) (cp : List (String × Pricing)) (n1 n2 : Nat) :
    (ctx.start_span name ty inp mid n1).1.parent_span_id = none ∧
    (ctx.start_span name ty inp mid n1).2.spans = ctx.spans ∧
    (ctx.start_span name ty inp mid n1).2.active_stack = ctx.active_stack ∧
    ((ctx.start_span name ty inp mid n1).2.end_span
        (ctx.start_span name ty inp mid n1).1 a cp n2).2.spans = ctx.spans ∧
    ((ctx.start_span name ty inp mid n1).2.end_span
        (ctx.start_span name ty inp mid n1).1 a cp n2).2.active_stack = ctx.active_stack ∧
    ((ctx.start_span name ty inp mid n1).2.end_span
        (ctx.start_span name ty inp mid n1).1 a cp n2).1 =
      (ctx.start_span name ty inp mid n1).1.finalize a cp n2 := by
  have hcond : MAX_SPANS_PER_TRACE ≤ ctx.spans.length := le_of_eq hfull.symm
  have hstart : ctx.start_span name ty inp mid n1 =
      ({ span_id := ctx.next_span_id, name := name, span_type := ty,
         started_at := n1, input := truncateOpt inp, model_id := mid },
       { ctx with next_span_id := ctx.next_span_id + 1 }) := by
    simp [TraceContext.start_span, hcond]
  have hid : (ctx.start_span name ty inp mid n1).1.span_id = ctx.next_span_id := by
    rw [hstart]
  have hspans2 : (ctx.start_span name ty inp mid n1).2.spans = ctx.spans := by
    rw [hstart]
  have hstack2 : (ctx.start_span name ty inp mid n1).2.active_stack = ctx.active_stack := by
    rw [hstart]
  have hframe := end_span_frame (ctx.start_span name ty inp mid n1).2
    (ctx.start_span name ty inp mid n1).1 a cp n2
    (by
      intro t ht
      rw [hid]
      rw [hspans2] at ht
      exact Nat.ne_of_lt (hwf.1 t ht))
    (by
      rw [hid, hstack2]
      intro hc
      have hmem : ctx.next_span_id ∈ ctx.active_stack := mem_of_getLast?_eq hc
      exact Nat.lt_irrefl _ (hwf.2 _ hmem))
  refine ⟨by rw [hstart], hspans2, hstack2, ?_, ?_, rfl⟩
  · rw [hframe.1, hspans2]
  · rw [hframe.2, hstack2]

/-- C10 witness: the overflow frame conditions evaluated on a concrete full
context with a non-empty active stack. -/
theorem span_overflow_frame_witness :
    (fullCtx.start_span "tool_call" "tool" none none 7).1.parent_span_id = none ∧
    (fullCtx.start_span "tool_call" "tool" none none 7).2.spans = fullCtx.spans ∧
    ((fullCtx.start_span "tool_call" "tool" none none 7).2.end_span
        (fullCtx.start_span "tool_call" "tool" none none 7).1 {} [] 9).2.spans = fullCtx.spans ∧
    ((fullCtx.start_span "tool_call" "tool" none none 7).2.end_span
        (fullCtx.start_span "tool_call" "tool" none none 7).1 {} [] 9).2.active_stack =
      fullCtx.active_stack := by
  have h := span_overflow_frame fullCtx (by constructor <;> decide) (by decide)
    "tool_call" "tool" none none {} [] 7 9
  exact ⟨h.1, h.2.1, h.2.2.2.1, h.2.2.2.2.1⟩

/-- The prompt hash is the hash of the normalised prompt, in both branches of
`compute_fingerprint`. -/
theorem fingerprint_prompt_hash (hash : List Char → List Char) (p : List Char) :
    (compute_fingerprint hash p).prompt_hash = hash (pyNormalize p) := by
  by_cases h : p = []
  · subst h; rfl
  · simp [compute_fingerprint, h]

/-- The structure hash is the hash of the skeleton, in both branches of
`compute_fingerprint`. -/
theorem fingerprint_structure_hash (hash : List Char → List Char) (p : List Char) :
    (compute_fingerprint hash p).structure_hash = hash (skeleton p) := by
  by_cases h : p = []
  · subst h; rfl
  · simp [compute_fingerprint, h, skeleton]

/-- C8: for prompts with equal skeletons (after strip+lowercase and `{VAR}`
substitution) the structure hashes agree; with a collision-free hash the
prompt hashes agree exactly when the prompts coincide after strip+lowercase;
`compute_similarity` of two such fingerprints is exactly `9/10` when the
prompt hashes differ and `1` when they agree; and the empty prompt yields the
hash of the empty input for both fields with all counts zero. -/
theorem fingerprint_structure_law (hash : List Char → List Char)
    (hinj : Function.Injective hash) (a b : List Char)
    (hskel : skeleton a = skeleton b) :
    (compute_fingerprint hash a).structure_hash =
      (compute_fingerprint hash b).structure_hash ∧
    ((compute_fingerprint hash a).prompt_hash =
        (compute_fingerprint hash b).prompt_hash ↔ pyNormalize a = pyNormalize b) ∧
    ((compute_fingerprint hash a).prompt_hash ≠
        (compute_fingerprint hash b).prompt_hash →
      compute_similarity (compute_fingerprint hash a) (compute_fingerprint hash b)
        = 9/10) ∧
    ((compute_fingerprint hash a).prompt_hash =
        (compute_fingerprint hash b).prompt_hash →
      compute_similarity (compute_fingerprint hash a) (compute_fingerprint hash b)
        = 1) ∧
    compute_fingerprint hash [] =
      { prompt_hash := hash [], structure_hash := hash [],
        char_count := 0, word_count := 0, line_count := 0, template_vars := [] } := by
  have hsh : (compute_fingerprint hash a).structure_hash =
      (compute_fingerprint hash b).structure_hash := by
    rw [fingerprint_structure_hash, fingerprint_structure_hash, hskel]
  refine ⟨hsh, ?_, ?_, ?_, rfl⟩
  · rw [fingerprint_prompt_hash, fingerprint_prompt_hash]
    exact ⟨fun h => hinj h, congrArg hash⟩
  · intro hne
    simp [compute_similarity, hne, hsh]
  · intro heq
    simp [compute_similarity, heq]

/-- C8 witness: the scenario prompts of the spec, with the identity map as a
concrete injective stand-in for the hash. -/
theorem fingerprint_structure_law_witness :
    (compute_fingerprint id "Hello {name}".data).structure_hash =
      (compute_fingerprint id "Hello {user}".data).structure_hash ∧
    (compute_fingerprint id "Hello {name}".data).prompt_hash ≠
      (compute_fingerprint id "Hello {user}".data).prompt_hash ∧
    compute_similarity (compute_fingerprint id "Hello {name}".data)
      (compute_fingerprint id "Hello {user}".data) = 9/10 ∧
    compute_similarity (compute_fingerprint id "Hello {name}".data)
      (compute_fingerprint id "Hello {name}".data) = 1 := by
  have h := fingerprint_structure_law id (fun _ _ hxy => hxy)
    "Hello {name}".data "Hello {user}".data (by decide)
  have hne : pyNormalize "Hello {name}".data ≠ pyNormalize "Hello {user}".data := by
    decide
  have hph : (compute_fingerprint id "Hello {name}".data).prompt_hash ≠
      (compute_fingerprint id "Hello {user}".data).prompt_hash :=
    fun heq => hne (h.2.1.mp heq)
  have h2 := fingerprint_structure_law id (fun _ _ hxy => hxy)
    "Hello {name}".data "Hello {name}".data rfl
  exact ⟨h.1, hph, h.2.2.1 hph, h2.2.2.2.1 rfl⟩

/-- Looking up the key just written by `setAssoc` finds the new value. -/
theorem lookup_setAssoc {β : Type} (k : String) (v : β) (l : List (String × β)) :
    (setAssoc k v l).lookup k = some v := by
  induction l with
  | nil => simp [setAssoc, List.lookup]
  | cons hd tl ih =>
    obtain ⟨k2, v2⟩ := hd
    by_cases h : k2 = k
    · simp [setAssoc, h, List.lookup]
    · simp only [setAssoc, if_neg h, List.lookup]
      have hbeq : (k == k2) = false := beq_eq_false_iff_ne.mpr (Ne.symm h)
      rw [hbeq]
      exact ih

/-- C5 (counterexample): `_fetch_status` parses only on status code exactly
200.  A 201 response — a 2xx — whose body says BLOCKED is not parsed: the
checker caches the default `(ACTIVE, None, [])` entry instead of the body's
contents, contradicting the claim's "any 2xx" parse rule. -/
theorem status_2xx_parse_cex :
    200 ≤ resp201.status_code ∧ resp201.status_code < 300 ∧
    fetchStatus (.response resp201) = .ok ("ACTIVE", none, []) ∧
    AgentStatusChecker.fetch_and_cache { ttl := 10 } "agent-1" 0 (.response resp201) =
      .ok { ttl := 10, cache := [("agent-1", ⟨"ACTIVE", none, [], 10⟩)] } ∧
    resp201.body = some { status := some "BLOCKED", blocked_reason := some "manual",
                          policies := some [] } := by
  decide

/-- C5 (amended): on a fetch, a response with status code exactly 200 and a
parseable body is parsed — with `ACTIVE`/`None`/`[]` defaults for absent
keys — and cached with expiry `now + TTL`; a response with any other status
code, other 2xx codes included, caches the `(ACTIVE, None, [])` entry for the
TTL; and a 200 response whose body fails to parse raises, leaving the cache
unchanged. -/
theorem status_fetch_cache_spec (c : AgentStatusChecker) (agent : String)
    (now : Nat) (r : StatusResponse) :
    (r.status_code = 200 → ∀ data, r.body = some data →
      c.fetch_and_cache agent now (.response r) =
        .ok { c with cache := (setAssoc agent
          ⟨data.status.getD "ACTIVE", data.blocked_reason, data.policies.getD [],
           now + c.ttl⟩ c.cache) }) ∧
    (r.status_code ≠ 200 →
      c.fetch_and_cache agent now (.response r) =
        .ok { c with cache := (setAssoc agent ⟨"ACTIVE", none, [], now + c.ttl⟩ c.cache) }) ∧
    (r.status_code = 200 → r.body = none →
      c.fetch_and_cache agent now (.response r) = .error ()) := by
  refine ⟨fun h200 data hbody => ?_, fun hne => ?_, fun h200 hbody => ?_⟩
  · simp [AgentStatusChecker.fetch_and_cache, fetchStatus, h200, hbody]
  · simp [AgentStatusChecker.fetch_and_cache, fetchStatus, hne]
  · simp [AgentStatusChecker.fetch_and_cache, fetchStatus, h200, hbody]

/-- C5 witness: a parsed 200 response and a default-cached 503 response. -/
theorem status_fetch_cache_spec_witness :
    AgentStatusChecker.fetch_and_cache { ttl := 10 } "agent-1" 3
      (.response { status_code := 200,
                   body := some { status := some "BLOCKED",
                                  blocked_reason := some "manual",
                                  policies := some [] } }) =
      .ok { ttl := 10, cache := [("agent-1", ⟨"BLOCKED", some "manual", [], 13⟩)] } ∧
    AgentStatusChecker.fetch_and_cache { ttl := 10 } "agent-1" 3
      (.response { status_code := 503 }) =
      .ok { ttl := 10, cache := [("agent-1", ⟨"ACTIVE", none, [], 13⟩)] } := by
  have h1 := (status_fetch_cache_spec { ttl := 10 } "agent-1" 3
    { status_code := 200,
      body := some { status := some "BLOCKED", blocked_reason := some "manual",
                     policies := some [] } }).1 rfl _ rfl
  have h2 := (status_fetch_cache_spec { ttl := 10 } "agent-1" 3
    { status_code := 503 }).2.1 (by decide)
  exact ⟨h1, h2⟩

/-- Both read operations delegate their state transition and fetch flag to
`consult`. -/
theorem readStep_eq_consult (c : AgentStatusChecker) (agent : String) (rc : ReadCall) :
    readStep c agent rc =
      ((c.consult agent rc.time rc.fetch).2.1, (c.consult agent rc.time rc.fetch).2.2) := by
  cases rc with
  | mk op time fetch => cases op <;> rfl

/-- Exhaustive description of `consult`: either a fresh hit (no state change,
no fetch), or a fetch that failed (no state change), or a fetch that
succeeded (the parsed entry is inserted with expiry `now + ttl`). -/
theorem consult_cases (c : AgentStatusChecker) (agent : String) (now : Nat)
    (fetch : FetchResult) :
    (∃ e, c.cache.lookup agent = some e ∧ now < e.expires_at ∧
      c.consult agent now fetch = (some e, c, false)) ∨
    ((c.cache.lookup agent = none ∨
        ∃ e, c.cache.lookup agent = some e ∧ e.expires_at ≤ now) ∧
      ((fetchStatus fetch = .error () ∧ c.consult agent now fetch = (none, c, true)) ∨
       (∃ s r ps, fetchStatus fetch = .ok (s, r, ps) ∧
         c.consult agent now fetch =
           (some ⟨s, r, ps, now + c.ttl⟩,
            { c with cache := (setAssoc agent ⟨s, r, ps, now + c.ttl⟩ c.cache) },
            true)))) := by
  unfold AgentStatusChecker.consult AgentStatusChecker.fetch_and_cache
  cases hl : c.cache.lookup agent with
  | some e =>
    by_cases hf : now < e.expires_at
    · exact Or.inl ⟨e, rfl, hf, by simp [hf]⟩
    · refine Or.inr ⟨Or.inr ⟨e, rfl, Nat.le_of_not_lt hf⟩, ?_⟩
      cases hs : fetchStatus fetch with
      | error u =>
        cases u
        exact Or.inl ⟨rfl, by simp [hf, hs]⟩
      | ok v =>
        obtain ⟨s, r, ps⟩ := v
        exact Or.inr ⟨s, r, ps, rfl, by simp [hf, hs, lookup_setAssoc]⟩
  | none =>
    refine Or.inr ⟨Or.inl rfl, ?_⟩
    cases hs : fetchStatus fetch with
    | error u =>
      cases u
      exact Or.inl ⟨rfl, by simp [hs]⟩
    | ok v =>
      obtain ⟨s, r, ps⟩ := v
      exact Or.inr ⟨s, r, ps, rfl, by simp [hs, lookup_setAssoc]⟩

/-- Step equation for `fetchTimes` driven by a computed `readStep` result. -/
theorem fetchTimes_cons_eq (c c2 : AgentStatusChecker) (agent : String)
    (rc : ReadCall) (rest : List ReadCall) (flag : Bool)
    (h : readStep c agent rc = (c2, flag)) :
    fetchTimes c agent (rc :: rest) =
      if flag then rc.time :: fetchTimes c2 agent rest
      else fetchTimes c2 agent rest := by
  simp only [fetchTimes]
  rw [h]

/-- Step equation for the GET counter of `runReads`. -/
theorem runReads_cons_eq (c c2 : AgentStatusChecker) (agent : String)
    (rc : ReadCall) (rest : List ReadCall) (flag : Bool)
    (h : readStep c agent rc = (c2, flag)) :
    (runReads c agent (rc :: rest)).2 =
      (if flag then 1 else 0) + (runReads c2 agent rest).2 := by
  simp only [runReads]
  rw [h]

/-- The GET count of a run is the number of recorded fetch times. -/
theorem runReads_count_eq (agent : String) (calls : List ReadCall) :
    ∀ c : AgentStatusChecker,
      (runReads c agent calls).2 = (fetchTimes c agent calls).length := by
  induction calls with
  | nil => intro c; rfl
  | cons rc rest ih =>
    intro c
    rw [runReads_cons_eq c (readStep c agent rc).1 agent rc rest (readStep c agent rc).2 rfl,
        fetchTimes_cons_eq c (readStep c agent rc).1 agent rc rest (readStep c agent rc).2 rfl]
    by_cases h : (readStep c agent rc).2
    · rw [if_pos h, if_pos h, List.length_cons, ih]
      omega
    · rw [if_neg h, if_neg h, ih]
      omega

/-- Every recorded fetch time is the time of one of the calls. -/
theorem fetchTimes_sub_times (agent : String) (calls : List ReadCall) :
    ∀ c : AgentStatusChecker, ∀ t ∈ fetchTimes c agent calls,
      ∃ rc ∈ calls, rc.time = t := by
  induction calls with
  | nil => intro c t ht; cases ht
  | cons rc rest ih =>
    intro c t ht
    rw [fetchTimes_cons_eq c (readStep c agent rc).1 agent rc rest
      (readStep c agent rc).2 rfl] at ht
    by_cases h : (readStep c agent rc).2
    · rw [if_pos h] at ht
      rcases List.mem_cons.mp ht with rfl | ht2
      · exact ⟨rc, List.mem_cons_self rc rest, rfl⟩
      · obtain ⟨x, hx, hxt⟩ := ih (readStep c agent rc).1 t ht2
        exact ⟨x, List.mem_cons_of_mem rc hx, hxt⟩
    · rw [if_neg h] at ht
      obtain ⟨x, hx, hxt⟩ := ih (readStep c agent rc).1 t ht
      exact ⟨x, List.mem_cons_of_mem rc hx, hxt⟩

/-- When every performed fetch parses successfully, every recorded fetch time
is at or past the cached deadline: a fetch only fires once the previous entry
has expired. -/
theorem fetchTimes_lower (agent : String) (calls : List ReadCall) :
    ∀ c : AgentStatusChecker,
      (∀ rc ∈ calls, (fetchStatus rc.fetch).isOk = true) →
      ∀ t ∈ fetchTimes c agent calls, cacheBound c agent ≤ t := by
  induction calls with
  | nil => intro c _ t ht; cases ht
  | cons rc rest ih =>
    intro c hsucc t ht
    have hsrest : ∀ x ∈ rest, (fetchStatus x.fetch).isOk = true :=
      fun x hx => hsucc x (List.mem_cons_of_mem rc hx)
    rcases consult_cases c agent rc.time rc.fetch with
      ⟨e, hl, hfresh, hcons⟩ | ⟨hstale, hout⟩
    · have hrs : readStep c agent rc = (c, false) := by
        rw [readStep_eq_consult, hcons]
      rw [fetchTimes_cons_eq c c agent rc rest false hrs,
        if_neg Bool.false_ne_true] at ht
      exact ih c hsrest t ht
    · have hblo : cacheBound c agent ≤ rc.time := by
        rcases hstale with hnone | ⟨e, hl, hexp⟩
        · simp [cacheBound, hnone]
        · simpa [cacheBound, hl] using hexp
      rcases hout with ⟨hfail, _⟩ | ⟨s, r, ps, hok, hcons⟩
      · have hbad := hsucc rc (List.mem_cons_self rc rest)
        rw [hfail] at hbad
        exact absurd hbad (by decide)
      · set c2 : AgentStatusChecker :=
          { c with cache := (setAssoc agent ⟨s, r, ps, rc.time + c.ttl⟩ c.cache) } with hc2
        have hrs : readStep c agent rc = (c2, true) := by
          rw [readStep_eq_consult, hcons]
        rw [fetchTimes_cons_eq c c2 agent rc rest true hrs, if_pos rfl] at ht
        rcases List.mem_cons.mp ht with rfl | ht2
        · exact hblo
        · have h2 := ih c2 hsrest t ht2
          have hb2 : cacheBound c2 agent = rc.time + c.ttl := by
            simp [hc2, cacheBound, lookup_setAssoc]
          rw [hb2] at h2
          exact le_trans hblo (le_trans (Nat.le_add_right _ _) h2)

/-- Successive successful fetches are separated by at least one TTL. -/
theorem fetchTimes_chain (agent : String) (calls : List ReadCall) :
    ∀ c : AgentStatusChecker,
      (∀ rc ∈ calls, (fetchStatus rc.fetch).isOk = true) →
      List.Chain' (fun x y => x + c.ttl ≤ y) (fetchTimes c agent calls) := by
  induction calls with
  | nil => intro c _; exact List.chain'_nil
  | cons rc rest ih =>
    intro c hsucc
    have hsrest : ∀ x ∈ rest, (fetchStatus x.fetch).isOk = true :=
      fun x hx => hsucc x (List.mem_cons_of_mem rc hx)
    rcases consult_cases c agent rc.time rc.fetch with
      ⟨e, hl, hfresh, hcons⟩ | ⟨hstale, hout⟩
    · have hrs : readStep c agent rc = (c, false) := by
        rw [readStep_eq_consult, hcons]
      rw [fetchTimes_cons_eq c c agent rc rest false hrs,
        if_neg Bool.false_ne_true]
      exact ih c hsrest
    · rcases hout with ⟨hfail, _⟩ | ⟨s, r, ps, hok, hcons⟩
      · have hbad := hsucc rc (List.mem_cons_self rc rest)
        rw [hfail] at hbad
        exact absurd hbad (by decide)
      · set c2 : AgentStatusChecker :=
          { c with cache := (setAssoc agent ⟨s, r, ps, rc.time + c.ttl⟩ c.cache) } with hc2
        have hrs : readStep c agent rc = (c2, true) := by
          rw [readStep_eq_consult, hcons]
        rw [fetchTimes_cons_eq c c2 agent rc rest true hrs, if_pos rfl,
          List.chain'_cons']
        refine ⟨?_, ih c2 hsrest⟩
        intro y hy
        have hymem : y ∈ fetchTimes c2 agent rest := List.mem_of_mem_head? hy
        have hlow := fetchTimes_lower agent rest c2 hsrest y hymem
        have hb2 : cacheBound c2 agent = rc.time + c.ttl := by
          simp [hc2, cacheBound, lookup_setAssoc]
        rw [hb2] at hlow
        exact hlow

/-- Arithmetic core: a chain of times separated by at least `ttl`, all lying
in a window of width `elapsed`, has at most `elapsed / ttl + 1` members. -/
theorem chain_window_card (ttl lo elapsed : Nat) (httl : 0 < ttl) :
    ∀ l : List Nat, List.Chain' (fun x y => x + ttl ≤ y) l →
      (∀ t ∈ l, lo ≤ t) → (∀ t ∈ l, t ≤ lo + elapsed) →
      l.length ≤ elapsed / ttl + 1 := by
  have key : ∀ l : List Nat, ∀ x : Nat, List.Chain' (fun x y => x + ttl ≤ y) (x :: l) →
      (∀ t ∈ x :: l, t ≤ lo + elapsed) →
      x + l.length * ttl ≤ lo + elapsed := by
    intro l
    induction l with
    | nil =>
      intro x _ hhi
      simpa using hhi x (List.mem_cons_self x [])
    | cons y ys ih =>
      intro x hchain hhi
      have hxy : x + ttl ≤ y := (List.chain'_cons.mp hchain).1
      have hy := ih y (List.chain'_cons.mp hchain).2
        (fun t ht => hhi t (List.mem_cons_of_mem x ht))
      simp only [List.length_cons]
      calc x + (ys.length + 1) * ttl = x + ttl + ys.length * ttl := by ring
        _ ≤ y + ys.length * ttl := by omega
        _ ≤ lo + elapsed := hy
  intro l hchain hlo hhi
  cases l with
  | nil => simp
  | cons x xs =>
    have hx : lo ≤ x := hlo x (List.mem_cons_self x xs)
    have hk := key xs x hchain hhi
    have hmul : xs.length * ttl ≤ elapsed := by omega
    have hdiv : xs.length ≤ elapsed / ttl := (Nat.le_div_iff_mul_le httl).mpr hmul
    simp only [List.length_cons]
    omega

/-- C6 (counterexample): the claim fails once backend errors are allowed —
errors do not update the cache, so every read during an outage performs its
own HTTP GET.  Two reads at the same instant (window `elapsed = 0`, TTL 10)
make 2 GETs, while the claimed bound is `⌈0/10⌉ + 1 = 1`. -/
theorem cache_freshness_cex :
    (runReads { ttl := 10 } "agent-1"
      [⟨.isBlocked, 0, .netError⟩, ⟨.isBlocked, 0, .netError⟩]).2 = 2 ∧
    ¬ (runReads { ttl := 10 } "agent-1"
      [⟨.isBlocked, 0, .netError⟩, ⟨.isBlocked, 0, .netError⟩]).2 ≤ (0 + 10 - 1) / 10 + 1 := by
  decide

/-- C6 (amended): over any window of `elapsed` seconds and any interleaving
of `is_blocked`/`get_policies` calls *whose performed fetches all succeed*
(2xx-or-not responses with parseable handling — i.e. `_fetch_status` returns
instead of raising), the checker performs at most `⌈elapsed/TTL⌉ + 1` backend
GETs for an agent; indeed at most `⌊elapsed/TTL⌋ + 1`.  When a fetch raises
(network/parse error) the cache is not updated and the next call retries, so
no such bound exists in general (see the counterexample). -/
theorem cache_freshness_bound (c : AgentStatusChecker) (agent : String)
    (calls : List ReadCall) (lo elapsed : Nat) (httl : 0 < c.ttl)
    (hsucc : ∀ rc ∈ calls, (fetchStatus rc.fetch).isOk = true)
    (hlo : ∀ rc ∈ calls, lo ≤ rc.time)
    (hhi : ∀ rc ∈ calls, rc.time ≤ lo + elapsed) :
    (runReads c agent calls).2 ≤ (elapsed + c.ttl - 1) / c.ttl + 1 := by
  rw [runReads_count_eq]
  have hcard := chain_window_card c.ttl lo elapsed httl (fetchTimes c agent calls)
    (fetchTimes_chain agent calls c hsucc)
    (by
      intro t ht
      obtain ⟨rc, hrc, rfl⟩ := fetchTimes_sub_times agent calls c t ht
      exact hlo rc hrc)
    (by
      intro t ht
      obtain ⟨rc, hrc, rfl⟩ := fetchTimes_sub_times agent calls c t ht
      exact hhi rc hrc)
  have hdivle : elapsed / c.ttl ≤ (elapsed + c.ttl - 1) / c.ttl :=
    Nat.div_le_div_right (by omega)
  omega

/-- C6 witness: three reads at times 0, 5 and 12 against a healthy backend
(TTL 10) perform 2 GETs, within the bound `⌈12/10⌉ + 1 = 3`. -/
theorem cache_freshness_bound_witness :
    (runReads { ttl := 10 } "agent-1"
      [⟨.isBlocked, 0, .response { status_code := 200, body := some {} }⟩,
       ⟨.getPolicies, 5, .response { status_code := 200, body := some {} }⟩,
       ⟨.isBlocked, 12, .response { status_code := 200, body := some {} }⟩]).2 ≤
      (12 + 10 - 1) / 10 + 1 := by
  exact cache_freshness_bound { ttl := 10 } "agent-1"
    [⟨.isBlocked, 0, .response { status_code := 200, body := some {} }⟩,
     ⟨.getPolicies, 5, .response { status_code := 200, body := some {} }⟩,
     ⟨.isBlocked, 12, .response { status_code := 200, body := some {} }⟩]
    0 12 (by decide) (by decide) (by decide) (by decide)

/-- Loop invariant for `flushLoop`: starting at attempt `i` with the matching
iteration budget, between 1 and `remaining` attempts happen and the sleeps
are the geometric backoff prefix `backoff * 2 ^ k`. -/
theorem flushLoop_spec (outcomes : Nat → AttemptOutcome) :
    ∀ remaining i backoff, remaining + i = MAX_RETRIES + 1 → i ≤ MAX_RETRIES →
      1 ≤ (flushLoop outcomes remaining i backoff).1 ∧
      (flushLoop outcomes remaining i backoff).1 ≤ remaining ∧
      (flushLoop outcomes remaining i backoff).2 =
        (List.range ((flushLoop outcomes remaining i backoff).1 - 1)).map
          (fun k => backoff * 2 ^ k) := by
  intro remaining
  induction remaining with
  | zero =>
    intro i backoff hsum hle
    rw [MAX_RETRIES] at hsum hle
    omega
  | succ r ih =>
    intro i backoff hsum hle
    have hretry : i < MAX_RETRIES →
        1 ≤ (flushLoop outcomes r (i + 1) (backoff * BACKOFF_MULTIPLIER)).1 + 1 ∧
        (flushLoop outcomes r (i + 1) (backoff * BACKOFF_MULTIPLIER)).1 + 1 ≤ r + 1 ∧
        backoff :: (flushLoop outcomes r (i + 1) (backoff * BACKOFF_MULTIPLIER)).2 =
          (List.range ((flushLoop outcomes r (i + 1) (backoff * BACKOFF_MULTIPLIER)).1 + 1 - 1)).map
            (fun k => backoff * 2 ^ k) := by
      intro hi
      obtain ⟨h1, h2, h3⟩ := ih (i + 1) (backoff * BACKOFF_MULTIPLIER)
        (by omega) (by omega)
      refine ⟨by omega, by omega, ?_⟩
      obtain ⟨m, hm⟩ := Nat.exists_eq_add_of_le h1
      rw [h3]
      rw [show (flushLoop outcomes r (i + 1) (backoff * BACKOFF_MULTIPLIER)).1 = m + 1 by omega]
      simp only [Nat.add_sub_cancel, List.range_succ_eq_map, List.map_cons, List.map_map]
      congr 1
      · simp
      · apply List.map_congr_left
        intro k _
        simp only [BACKOFF_MULTIPLIER, Function.comp_apply, pow_succ]
        ring
    show 1 ≤ (flushLoop outcomes (r + 1) i backoff).1 ∧ _ ∧ _
    rw [flushLoop]
    cases houtcome : outcomes i with
    | response code =>
      by_cases h400 : code < 400
      · simp [h400]
      · by_cases h500 : code < 500
        · simp [h400, h500]
        · simp only [h400, h500, if_false]
          by_cases hi : i < MAX_RETRIES
          · obtain ⟨h1, h2, h3⟩ := hretry hi
            simp only [hi, if_true]
            exact ⟨h1, by omega, h3⟩
          · simp [hi]
    | exc =>
      by_cases hi : i < MAX_RETRIES
      · obtain ⟨h1, h2, h3⟩ := hretry hi
        simp only [hi, if_true]
        exact ⟨h1, by omega, h3⟩
      · simp [hi]

/-- C4: for any sequence of responses/exceptions, `_flush_http` makes between
1 and `MAX_RETRIES + 1 = 4` POST attempts; the sleeps between consecutive
attempts are exactly the prefix `[1, 2, 4]` of length `attempts - 1`; and a
4xx response to the first attempt means exactly one attempt is made. -/
theorem flush_http_retry_bound (outcomes : Nat → AttemptOutcome) :
    (flush_http outcomes).1 ≤ MAX_RETRIES + 1 ∧
    1 ≤ (flush_http outcomes).1 ∧
    (flush_http outcomes).2 = List.take ((flush_http outcomes).1 - 1) [1, 2, 4] ∧
    (∀ code, outcomes 0 = .response code → 400 ≤ code → code < 500 →
      (flush_http outcomes).1 = 1) := by
  obtain ⟨h1, h2, h3⟩ := flushLoop_spec outcomes (MAX_RETRIES + 1) 0
    INITIAL_BACKOFF_SECONDS rfl (Nat.zero_le _)
  have hcount : (flush_http outcomes).1 = (flushLoop outcomes (MAX_RETRIES + 1) 0
      INITIAL_BACKOFF_SECONDS).1 := rfl
  refine ⟨by rw [hcount]; exact h2, by rw [hcount]; exact h1, ?_, ?_⟩
  · show (flushLoop outcomes (MAX_RETRIES + 1) 0 INITIAL_BACKOFF_SECONDS).2 = _
    rw [h3, hcount]
    have h4 : (flushLoop outcomes (MAX_RETRIES + 1) 0 INITIAL_BACKOFF_SECONDS).1 ≤ 4 := by
      simpa [MAX_RETRIES] using h2
    generalize (flushLoop outcomes (MAX_RETRIES + 1) 0 INITIAL_BACKOFF_SECONDS).1 = n
      at h1 h4 ⊢
    have hcases : n = 1 ∨ n = 2 ∨ n = 3 ∨ n = 4 := by omega
    rcases hcases with rfl | rfl | rfl | rfl <;> decide
  · intro code h0 h4 h5
    show (flushLoop outcomes (MAX_RETRIES + 1) 0 INITIAL_BACKOFF_SECONDS).1 = 1
    rw [show MAX_RETRIES + 1 = 3 + 1 from rfl, flushLoop, h0]
    simp only
    rw [if_neg (by omega), if_pos (by omega)]

/-- C4 witness: a permanently failing backend exhausts all four attempts with
sleeps `[1, 2, 4]`; a 404 stops after a single attempt. -/
theorem flush_http_retry_bound_witness :
    (flush_http (fun _ => .response 503)).1 = 4 ∧
    (flush_http (fun _ => .response 503)).2 =
      List.take ((flush_http (fun _ => .response 503)).1 - 1) [1, 2, 4] ∧
    (flush_http (fun _ => .response 404)).1 = 1 := by
  have h1 := flush_http_retry_bound (fun _ => .response 503)
  have h2 := flush_http_retry_bound (fun _ => .response 404)
  exact ⟨by decide, h1.2.2.1, h2.2.2.2 404 rfl (by decide) (by decide)⟩

/-- Exhaustive description of the invocation phase's result: either the
user's value/exception passes through unchanged, or — only when the user
function returned and the harvest was ill-typed — the unprotected `finally`
block raises, nothing is recorded or sent, and the SDK error surfaces. -/
theorem invokePhase_result_cases {σ ε ρ : Type} (dec : ObserveDecorator)
    (env : CallEnv σ ε ρ) (tracker : RateTracker) :
    (invokePhase dec env tracker).result = env.userResult.mapError WrapErr.user ∨
    (∃ r msg, env.userResult = .ok r ∧
      (invokePhase dec env tracker).result = .error (.pyError msg) ∧
      (invokePhase dec env tracker).sendCalls = [] ∧
      (invokePhase dec env tracker).tracker = tracker ∧
      (¬ (pyIsInt (env.extractTokens r).1 = true ∧
          pyIsInt (env.extractTokens r).2 = true) ∨
       ¬ pyIsStr (if pyTruthy (env.extractModelId r) then env.extractModelId r
                  else .str dec.model_id) = true)) := by
  cases henv : env.userResult with
  | error e =>
    left
    simp [invokePhase, henv, Except.mapError, pyTruthy, pyIsInt, pyIsStr]
  | ok r =>
    unfold invokePhase
    simp only [henv]
    generalize hM : (if pyTruthy (env.extractModelId r) = true
      then env.extractModelId r else PyScalar.str dec.model_id) = m
    generalize hT : env.extractTokens r = t
    split_ifs with h1 h2 h3
    · refine Or.inr ⟨r, _, rfl, rfl, rfl, rfl, Or.inl ?_⟩
      intro hii
      rw [hT] at hii
      rw [hii.1, hii.2] at h1
      simp at h1
    · refine Or.inr ⟨r, _, rfl, rfl, rfl, rfl, Or.inl ?_⟩
      intro hii
      rw [hT] at hii
      rw [hii.1, hii.2] at h2
      simp at h2
    · refine Or.inr ⟨r, _, rfl, rfl, rfl, rfl, Or.inr ?_⟩
      intro his
      rw [hM] at his
      rw [his] at h3
      simp at h3
    · left
      simp [Except.mapError]
    · left
      simp [Except.mapError]

/-- With a well-typed harvest the invocation phase returns the user's result
unchanged (or re-raises the user's exception wrapped as a user error) and
always marks the user function invoked. -/
theorem invokePhase_facts {σ ε ρ : Type} (dec : ObserveDecorator) (env : CallEnv σ ε ρ)
    (tracker : RateTracker) (hwt : harvestWellTyped dec env) :
    (invokePhase dec env tracker).result = env.userResult.mapError WrapErr.user ∧
    (invokePhase dec env tracker).userInvoked = true := by
  cases henv : env.userResult with
  | error e =>
    constructor <;>
      simp [invokePhase, henv, Except.mapError, pyTruthy, pyIsInt, pyIsStr]
  | ok r =>
    obtain ⟨hw1, hw2, hw3⟩ := hwt r henv
    constructor <;> simp [invokePhase, henv, Except.mapError, hw1, hw2, hw3]

/-- With a well-typed harvest and a successful `record_invocation`, the
invocation phase appends the current timestamp to the rate tracker. -/
theorem invokePhase_tracker_record {σ ε ρ : Type} (dec : ObserveDecorator)
    (env : CallEnv σ ε ρ) (tracker : RateTracker)
    (hwt : harvestWellTyped dec env) (hrec : env.recordResult = .ok ()) :
    (invokePhase dec env tracker).tracker =
      tracker.record_invocation dec.agent_id env.rateNow := by
  cases henv : env.userResult with
  | error e => simp [invokePhase, henv, hrec, pyTruthy, pyIsInt, pyIsStr]
  | ok r =>
    obtain ⟨hw1, hw2, hw3⟩ := hwt r henv
    simp [invokePhase, henv, hrec, hw1, hw2, hw3]

/-- Phase 1 can only produce an `AgentBlockedError`, and only from a definite
blocked verdict of the status checker. -/
theorem killSwitchOutcome_shape {σ ε ρ : Type} (dec : ObserveDecorator)
    (env : CallEnv σ ε ρ) (err : WrapErr σ ε)
    (h : killSwitchOutcome dec env = some err) :
    ∃ reason, err = .agentBlocked dec.agent_id reason ∧
      env.statusCheck = .ok (true, reason) := by
  unfold killSwitchOutcome at h
  by_cases hc : dec.has_status_checker = true
  · rw [if_pos hc] at h
    cases hs : env.statusCheck with
    | ok p =>
      obtain ⟨b, reason⟩ := p
      rw [hs] at h
      cases b
      · simp at h
      · simp only [Option.some.injEq] at h
        exact ⟨reason, h.symm, rfl⟩
    | error s =>
      rw [hs] at h
      simp at h
  · rw [if_neg hc] at h
    simp at h

/-- C1 (amended): whatever the *protected* oracles do — the status checker,
policy fetch, fingerprint primitive, rate recording and transport enqueue
may each raise, and the transport's `send` in particular may always raise —
none of their exceptions ever escapes (`WrapErr.sdk` is unreachable), the
only pre-invocation wrapper-raised errors are `AgentBlockedError` and
`PolicyViolationError`, and returned values/user exceptions always track the
user function.  The unprotected `finally` block is the exception: a
`pyError` can surface, but only when the user function returned a response
whose harvested token values are not ints or whose resolved model id is not
a string, and then no event reaches the transport.  Under a well-typed
harvest the full pass-through guarantee holds. -/
theorem wrapper_fail_safety {σ ε ρ : Type} (dec : ObserveDecorator)
    (env : CallEnv σ ε ρ) :
    (∀ s, (wrapperRun dec env).result ≠ .error (.sdk s)) ∧
    (∀ r, (wrapperRun dec env).result = .ok r → env.userResult = .ok r) ∧
    (∀ e, (wrapperRun dec env).result = .error (.user e) → env.userResult = .error e) ∧
    (∀ a reason, (wrapperRun dec env).result = .error (.agentBlocked a reason) →
      (wrapperRun dec env).userInvoked = false) ∧
    (∀ a v, (wrapperRun dec env).result = .error (.policyViolation a v) →
      (wrapperRun dec env).userInvoked = false) ∧
    (∀ msg, (wrapperRun dec env).result = .error (.pyError msg) →
      ∃ r, env.userResult = .ok r ∧
        (wrapperRun dec env).sendCalls = [] ∧
        (¬ (pyIsInt (env.extractTokens r).1 = true ∧
            pyIsInt (env.extractTokens r).2 = true) ∨
         ¬ pyIsStr (if pyTruthy (env.extractModelId r) then env.extractModelId r
                    else .str dec.model_id) = true)) ∧
    (harvestWellTyped dec env → (wrapperRun dec env).userInvoked = true →
      (wrapperRun dec env).result = env.userResult.mapError WrapErr.user) := by
  unfold wrapperRun
  cases hks : killSwitchOutcome dec env with
  | some err =>
    obtain ⟨reason, rfl, hsc⟩ := killSwitchOutcome_shape dec env err hks
    refine ⟨?_, ?_, ?_, ?_, ?_, ?_, ?_⟩ <;> simp
  | none =>
    cases hpol : (policyOutcome dec env).1 with
    | some v =>
      refine ⟨?_, ?_, ?_, ?_, ?_, ?_, ?_⟩ <;> simp [hpol]
    | none =>
      simp only [hpol]
      rcases invokePhase_result_cases dec env (policyOutcome dec env).2 with
        hres | ⟨r, msg, hur, hres, hsend, htr, hill⟩
      · refine ⟨?_, ?_, ?_, ?_, ?_, ?_, fun _ _ => hres⟩ <;>
          cases henv : env.userResult <;>
          rw [henv] at hres <;>
          simp [hres, Except.mapError, henv]
      · refine ⟨?_, ?_, ?_, ?_, ?_, ?_, ?_⟩
        · intro s h
          rw [hres] at h
          simp at h
        · intro r2 h
          rw [hres] at h
          simp at h
        · intro e h
          rw [hres] at h
          simp at h
        · intro a reason h
          rw [hres] at h
          simp at h
        · intro a v2 h
          rw [hres] at h
          simp at h
        · intro m h
          exact ⟨r, hur, hsend, hill⟩
        · intro hwt _
          obtain ⟨hw1, hw2, hw3⟩ := hwt r hur
          rcases hill with hii | his
          · exact absurd ⟨hw1, hw2⟩ hii
          · exact absurd hw3 his

/-- C2: when the status cache holds a fresh entry with status `BLOCKED`,
`is_blocked` reports it without fetching, and the wrapped call raises
`AgentBlockedError` carrying the agent id and the cached reason; the user
function is never invoked and no telemetry event is passed to — let alone
enqueued on — the transport. -/
theorem kill_switch_preemption {σ ε ρ : Type} (dec : ObserveDecorator)
    (env : CallEnv σ ε ρ) (c : AgentStatusChecker) (entry : CacheEntry)
    (now : Nat) (fetch : FetchResult)
    (hchk : dec.has_status_checker = true)
    (hentry : c.cache.lookup dec.agent_id = some entry)
    (hfresh : now < entry.expires_at)
    (hblocked : entry.status = "BLOCKED")
    (henv : env.statusCheck = .ok (c.is_blocked dec.agent_id now fetch).1) :
    (c.is_blocked dec.agent_id now fetch).1 = (true, entry.blocked_reason) ∧
    (wrapperRun dec env).result =
      .error (.agentBlocked dec.agent_id entry.blocked_reason) ∧
    (wrapperRun dec env).userInvoked = false ∧
    (wrapperRun dec env).sendCalls = [] ∧
    (wrapperRun dec env).enqueued = [] := by
  have hisb : (c.is_blocked dec.agent_id now fetch).1 = (true, entry.blocked_reason) := by
    unfold AgentStatusChecker.is_blocked AgentStatusChecker.consult
    rw [hentry]
    simp [hfresh, hblocked]
  have hks : killSwitchOutcome dec env =
      some (.agentBlocked dec.agent_id entry.blocked_reason) := by
    unfold killSwitchOutcome
    rw [if_pos hchk, henv, hisb]
  refine ⟨hisb, ?_, ?_, ?_, ?_⟩ <;> simp [wrapperRun, hks]

/-- C2 witness: the preemption conclusions on the concrete blocked cache. -/
theorem kill_switch_preemption_witness :
    (wrapperRun c2Dec c2Env).result =
      .error (.agentBlocked "agent-1" (some "manual")) ∧
    (wrapperRun c2Dec c2Env).userInvoked = false ∧
    (wrapperRun c2Dec c2Env).sendCalls = [] := by
  have h := kill_switch_preemption c2Dec c2Env blockedChecker
    ⟨"BLOCKED", some "manual", [], 100⟩ 5 .netError rfl rfl (by decide) rfl rfl
  exact ⟨h.2.1, h.2.2.1, h.2.2.2.1⟩

/-- `_evaluate_pre_invocation_policies` on a single BLOCK-enforced
RATE_LIMIT policy: a violation exactly when the count of recorded timestamps
inside the window reaches the maximum, with the tracker pruned either way. -/
theorem evalPolicies_rateLimit (dec : ObserveDecorator) (cp : List (String × Pricing))
    (now : Int) (hour : Nat) (tracker : RateTracker) (pid : String) (m w : Nat) :
    evalPolicies dec cp now hour tracker [rateLimitPolicy pid m w] =
      (if m ≤ ((tracker.get dec.agent_id).filter
          (fun t => now - (w : Int) * 60 < t)).length then
        some { policy_id := pid, policy_type := "RATE_LIMIT",
               message := "Rate limit exceeded: "
                 ++ toString ((tracker.get dec.agent_id).filter
                     (fun t => now - (w : Int) * 60 < t)).length
                 ++ " invocations in last " ++ toString w
                 ++ " minutes (limit: " ++ toString m ++ ")" }
       else none,
       { counts := setAssoc dec.agent_id
           ((tracker.get dec.agent_id).filter (fun t => now - (w : Int) * 60 < t))
           tracker.counts }) := by
  simp only [evalPolicies, evalOnePolicy, rateLimitPolicy, RateTracker.count_in_window]
  by_cases h : m ≤ ((tracker.get dec.agent_id).filter
      (fun t => now - (w : Int) * 60 < t)).length
  · simp [h]
  · simp [h]

/-- C3: for a call guarded by a single BLOCK-enforced RATE_LIMIT policy with
`max_invocations = m` and `window_minutes = w`, the wrapper raises
`PolicyViolationError` with policy type `RATE_LIMIT` exactly when at least
`m` recorded timestamps lie within the last `w*60` seconds.  Below the
limit the user function runs, its result passes through, and only then is
the current invocation's timestamp appended — so each call is judged
strictly against prior invocations.  At or above the limit the user
function is not invoked and no event reaches the transport. -/
theorem rate_limit_enforcement {σ ε ρ : Type} (dec : ObserveDecorator)
    (env : CallEnv σ ε ρ) (pid : String) (m w : Nat)
    (hchk : dec.has_status_checker = true)
    (hstat : env.statusCheck = .ok (false, none))
    (hpol : env.getPolicies = .ok [rateLimitPolicy pid m w])
    (hrec : env.recordResult = .ok ())
    (hharv : harvestWellTyped dec env) :
    ((∃ v, (wrapperRun dec env).result = .error (.policyViolation dec.agent_id v) ∧
        v.policy_type = "RATE_LIMIT") ↔
      m ≤ ((env.tracker.get dec.agent_id).filter
        (fun t => env.rateNow - (w : Int) * 60 < t)).length) ∧
    (((env.tracker.get dec.agent_id).filter
        (fun t => env.rateNow - (w : Int) * 60 < t)).length < m →
      (wrapperRun dec env).result = env.userResult.mapError WrapErr.user ∧
      (wrapperRun dec env).userInvoked = true ∧
      (wrapperRun dec env).tracker.get dec.agent_id =
        ((env.tracker.get dec.agent_id).filter
          (fun t => env.rateNow - (w : Int) * 60 < t)) ++ [env.rateNow]) ∧
    (m ≤ ((env.tracker.get dec.agent_id).filter
        (fun t => env.rateNow - (w : Int) * 60 < t)).length →
      (wrapperRun dec env).userInvoked = false ∧
      (wrapperRun dec env).sendCalls = []) := by
  have hks : killSwitchOutcome dec env = none := by
    unfold killSwitchOutcome
    rw [if_pos hchk, hstat]
  have hpo : policyOutcome dec env =
      evalPolicies dec env.customPricing env.rateNow env.currentHour env.tracker
        [rateLimitPolicy pid m w] := by
    unfold policyOutcome
    rw [if_pos hchk, hpol]
  rw [evalPolicies_rateLimit] at hpo
  by_cases hcmp : m ≤ ((env.tracker.get dec.agent_id).filter
      (fun t => env.rateNow - (w : Int) * 60 < t)).length
  · rw [if_pos hcmp] at hpo
    obtain ⟨v, hvpo, hvtype⟩ : ∃ v, policyOutcome dec env =
        (some v,
         { counts := (setAssoc dec.agent_id
             ((env.tracker.get dec.agent_id).filter
               (fun t => env.rateNow - (w : Int) * 60 < t)) env.tracker.counts) }) ∧
        v.policy_type = "RATE_LIMIT" := ⟨_, hpo, rfl⟩
    have h1 : (wrapperRun dec env).result =
        .error (.policyViolation dec.agent_id v) := by
      unfold wrapperRun
      rw [hks]
      simp only [hvpo]
    have h2 : (wrapperRun dec env).userInvoked = false := by
      unfold wrapperRun
      rw [hks]
      simp only [hvpo]
    have h3 : (wrapperRun dec env).sendCalls = [] := by
      unfold wrapperRun
      rw [hks]
      simp only [hvpo]
    exact ⟨⟨fun _ => hcmp, fun _ => ⟨v, h1, hvtype⟩⟩,
      fun hlt => absurd hcmp (by omega), fun _ => ⟨h2, h3⟩⟩
  · rw [if_neg hcmp] at hpo
    have hrun : wrapperRun dec env =
        invokePhase dec env (policyOutcome dec env).2 := by
      unfold wrapperRun
      rw [hks]
      simp only [hpo]
    obtain ⟨hres, hinv⟩ := invokePhase_facts dec env (policyOutcome dec env).2 hharv
    refine ⟨⟨fun hex => ?_, fun hge => absurd hge hcmp⟩, fun _ => ⟨?_, ?_, ?_⟩,
      fun hge => absurd hge hcmp⟩
    · obtain ⟨v, hv, _⟩ := hex
      rw [hrun, hres] at hv
      cases henv : env.userResult <;> rw [henv] at hv <;>
        simp [Except.mapError] at hv
    · rw [hrun]
      exact hres
    · rw [hrun]
      exact hinv
    · have htr2 : (wrapperRun dec env).tracker =
          (policyOutcome dec env).2.record_invocation dec.agent_id env.rateNow := by
        rw [hrun]
        exact invokePhase_tracker_record dec env (policyOutcome dec env).2 hharv hrec
      rw [htr2]
      simp only [hpo]
      simp only [RateTracker.record_invocation, RateTracker.get, lookup_setAssoc,
        Option.getD_some]

/-- C3 witness: with `max_invocations = 2`, calls at times 0 and 1 return
the user's value and are recorded; the call at time 2 never invokes the user
function and sends nothing. -/
theorem rate_limit_enforcement_witness :
    (wrapperRun rlDec (rlEnv {} 0)).result = .ok 1 ∧
    (wrapperRun rlDec (rlEnv (wrapperRun rlDec (rlEnv {} 0)).tracker 1)).result = .ok 1 ∧
    (wrapperRun rlDec (rlEnv (wrapperRun rlDec (rlEnv (wrapperRun rlDec
        (rlEnv {} 0)).tracker 1)).tracker 2)).userInvoked = false ∧
    (wrapperRun rlDec (rlEnv (wrapperRun rlDec (rlEnv (wrapperRun rlDec
        (rlEnv {} 0)).tracker 1)).tracker 2)).sendCalls = [] := by
  have hwt : ∀ (tr : RateTracker) (t : Int), harvestWellTyped rlDec (rlEnv tr t) := by
    intro tr t r hr
    cases hr
    exact ⟨rfl, rfl, rfl⟩
  have h1 := rate_limit_enforcement rlDec (rlEnv {} 0) "pol-1" 2 60 rfl rfl rfl rfl
    (hwt {} 0)
  have h2 := rate_limit_enforcement rlDec
    (rlEnv (wrapperRun rlDec (rlEnv {} 0)).tracker 1) "pol-1" 2 60 rfl rfl rfl rfl
    (hwt _ 1)
  have h3 := rate_limit_enforcement rlDec
    (rlEnv (wrapperRun rlDec (rlEnv (wrapperRun rlDec
      (rlEnv {} 0)).tracker 1)).tracker 2) "pol-1" 2 60 rfl rfl rfl rfl
    (hwt _ 2)
  exact ⟨(h1.2.1 (by decide)).1, (h2.2.1 (by decide)).1,
    (h3.2.2 (by decide)).1, (h3.2.2 (by decide)).2⟩

/-- C9 (counterexample): the claim says the wrapped function receives a
`trace` parameter only if its own signature accepts one.  But the wrapper
forwards the kwargs unchanged: for a function without a `trace` parameter
called with `trace=TraceContext()`, the wrapper still passes `trace` through
— the call fails with `TypeError` instead of running the function without
it. -/
theorem trace_tool_signature_cex :
    ("trace" ∈ toolFuncNoTrace.params → False) ∧
    (trace_tool_call none "tool" toolFuncNoTrace pyValStr pyValIsNone
      [] 0 1 toolKwargsNoTrace).passedKwargs.lookup "trace" = some (.traceCtx {}) ∧
    (trace_tool_call none "tool" toolFuncNoTrace pyValStr pyValIsNone
      [] 0 1 toolKwargsNoTrace).result = .error .typeError := by
  decide

/-- `_truncate` leaves a 2000-character slice unchanged. -/
theorem truncateStr_take_2000 (l : List Char) :
    truncateStr (l.take 2000) = l.take 2000 := by
  have h : (l.take 2000).length ≤ MAX_IO_LENGTH := by
    rw [List.length_take]
    exact le_trans (Nat.min_le_left _ _) (le_of_eq rfl)
  rw [truncateStr, if_pos h]

/-- Below capacity, `start_span` stores the span it returns, with the
requested type and name and no output yet. -/
theorem start_span_mem (ctx : TraceContext) (name ty : String)
    (inp : Option (List Char)) (mid : Option String) (n : Nat)
    (hcap : ctx.spans.length < MAX_SPANS_PER_TRACE) :
    (ctx.start_span name ty inp mid n).1 ∈ (ctx.start_span name ty inp mid n).2.spans ∧
    (ctx.start_span name ty inp mid n).1.span_type = ty ∧
    (ctx.start_span name ty inp mid n).1.name = name ∧
    (ctx.start_span name ty inp mid n).1.output = none := by
  rw [TraceContext.start_span, if_neg (Nat.not_le.mpr hcap)]
  refine ⟨?_, rfl, rfl, rfl⟩
  simp

/-- Ending a span whose id is stored replaces the stored copy with the
finalized span, which is therefore among the stored spans. -/
theorem end_span_mem_of_id (ctx : TraceContext) (x s : Span) (a : EndArgs)
    (cp : List (String × Pricing)) (n : Nat) (hx : x ∈ ctx.spans)
    (hid : x.span_id = s.span_id) :
    s.finalize a cp n ∈ (ctx.end_span s a cp n).2.spans := by
  show _ ∈ ctx.spans.map (fun y => if y.span_id = s.span_id then s.finalize a cp n else y)
  have hmem := List.mem_map_of_mem
    (fun y => if y.span_id = s.span_id then s.finalize a cp n else y) hx
  have heq : (fun y => if y.span_id = s.span_id then s.finalize a cp n else y) x
      = s.finalize a cp n := by
    simp [hid]
  rw [heq] at hmem
  exact hmem

/-- `finalize` does not touch the span's type or name, and stores the
truncated output argument. -/
theorem finalize_fields (s : Span) (a : EndArgs) (cp : List (String × Pricing))
    (n : Nat) :
    (s.finalize a cp n).span_type = s.span_type ∧
    (s.finalize a cp n).name = s.name ∧
    (s.finalize a cp n).output = truncateOpt a.output := by
  refine ⟨?_, ?_, ?_⟩ <;> (unfold Span.finalize; dsimp only; split <;> rfl)

/-- C9 (amended): the `trace_tool` wrapper forwards its keyword arguments
unchanged, so the function receives a `trace` argument exactly when the
caller passed one, regardless of its signature.  When the `trace` kwarg is
not a `TraceContext` the call runs untraced with an unchanged result.  When
it is a `TraceContext` the call result is again exactly that of the direct
call, and on success (with span capacity left) a span of the configured type
and name is recorded whose output is the stringified return value cut to
2000 characters (`None` for a `None` result). -/
theorem trace_tool_spec {ρ : Type} (name : Option String) (span_type : String)
    (f : PyFunc ρ) (toStr : ρ → List Char) (isNone : ρ → Bool)
    (cp : List (String × Pricing)) (nowS nowE : Nat)
    (kwargs : List (String × PyVal)) :
    (trace_tool_call name span_type f toStr isNone cp nowS nowE kwargs).passedKwargs
      = kwargs ∧
    ((∀ t, kwargs.lookup "trace" ≠ some (.traceCtx t)) →
      (trace_tool_call name span_type f toStr isNone cp nowS nowE kwargs).result
        = pyCall f kwargs ∧
      (trace_tool_call name span_type f toStr isNone cp nowS nowE kwargs).trace
        = none) ∧
    (∀ t, kwargs.lookup "trace" = some (.traceCtx t) →
      (trace_tool_call name span_type f toStr isNone cp nowS nowE kwargs).result
        = pyCall f kwargs ∧
      (∀ r, pyCall f kwargs = .ok r → t.spans.length < MAX_SPANS_PER_TRACE →
        ∃ tc, (trace_tool_call name span_type f toStr isNone cp nowS nowE kwargs).trace
            = some tc ∧
          ∃ s ∈ tc.spans, s.span_type = span_type ∧ s.name = name.getD f.name ∧
            s.output = (if isNone r then none else some ((toStr r).take 2000)))) := by
  refine ⟨?_, ?_, ?_⟩
  · unfold trace_tool_call
    cases hl : kwargs.lookup "trace" with
    | none => rfl
    | some v =>
      cases v with
      | noneV => rfl
      | str s => rfl
      | intV n => rfl
      | traceCtx t => cases hp : pyCall f kwargs <;> rfl
  · intro hne
    unfold trace_tool_call
    cases hl : kwargs.lookup "trace" with
    | none => exact ⟨rfl, rfl⟩
    | some v =>
      cases v with
      | noneV => exact ⟨rfl, rfl⟩
      | str s => exact ⟨rfl, rfl⟩
      | intV n => exact ⟨rfl, rfl⟩
      | traceCtx t => exact absurd hl (hne t)
  · intro t hl
    constructor
    · unfold trace_tool_call
      rw [hl]
      cases hp : pyCall f kwargs <;> rfl
    · intro r hp hcap
      have hcall : trace_tool_call name span_type f toStr isNone cp nowS nowE kwargs =
          (let r0 := t.start_span (name.getD f.name) span_type none none nowS
           let s2 : Span := { r0.1 with
             output := (if isNone r then none else some ((toStr r).take 2000)) }
           let a : EndArgs :=
             { output := s2.output, status := s2.status, error := s2.error,
               input_tokens := s2.input_tokens, output_tokens := s2.output_tokens,
               model_id := s2.model_id }
           { result := .ok r, passedKwargs := kwargs,
             trace := some ((r0.2.end_span s2 a cp nowE).2) }) := by
        unfold trace_tool_call
        rw [hl, hp]
      rw [hcall]
      refine ⟨_, rfl, ?_⟩
      obtain ⟨hmem, hty, hname, hout⟩ :=
        start_span_mem t (name.getD f.name) span_type none none nowS hcap
      refine ⟨Span.finalize
        { (t.start_span (name.getD f.name) span_type none none nowS).1 with
          output := (if isNone r then none else some ((toStr r).take 2000)) }
        { output := (if isNone r then none else some ((toStr r).take 2000)),
          status := (t.start_span (name.getD f.name) span_type none none nowS).1.status,
          error := (t.start_span (name.getD f.name) span_type none none nowS).1.error,
          input_tokens :=
            (t.start_span (name.getD f.name) span_type none none nowS).1.input_tokens,
          output_tokens :=
            (t.start_span (name.getD f.name) span_type none none nowS).1.output_tokens,
          model_id := (t.start_span (name.getD f.name) span_type none none nowS).1.model_id }
        cp nowE, ?_, ?_, ?_, ?_⟩
      · exact end_span_mem_of_id
          (t.start_span (name.getD f.name) span_type none none nowS).2
          (t.start_span (name.getD f.name) span_type none none nowS).1 _ _ cp nowE hmem rfl
      · rw [(finalize_fields _ _ _ _).1]
        exact hty
      · rw [(finalize_fields _ _ _ _).2.1]
        exact hname
      · rw [(finalize_fields _ _ _ _).2.2]
        by_cases hnone : isNone r
        · simp [hnone, truncateOpt]
        · simp [hnone, truncateOpt, truncateStr_take_2000]

/-- C9 witness: a tool accepting `trace`, called with an empty trace
context, returns its value with the kwargs forwarded unchanged. -/
theorem trace_tool_spec_witness :
    (trace_tool_call none "tool" toolFuncWithTrace pyValStr pyValIsNone
      [] 0 1 toolKwargsWithTrace).passedKwargs = toolKwargsWithTrace ∧
    (trace_tool_call none "tool" toolFuncWithTrace pyValStr pyValIsNone
      [] 0 1 toolKwargsWithTrace).result = .ok (.str "result".data) := by
  have h := trace_tool_spec none "tool" toolFuncWithTrace pyValStr pyValIsNone
    [] 0 1 toolKwargsWithTrace
  refine ⟨h.1, ?_⟩
  rw [(h.2.2 {} (by decide)).1]
  decide

/-- C1 (counterexample): every oracle is healthy and the user function
returns normally, but its response dict holds a string token count
(`{"usage": {"inputTokens": "100"}}`).  The wrapper neither returns the
user's value nor re-raises a user exception: the unprotected `finally`
block's `estimate_cost` arithmetic raises a `TypeError` that surfaces to the
caller, refuting the claim that no SDK-originated exception ever
propagates. -/
theorem wrapper_sdk_exception_cex :
    c1Env.userResult = .ok 7 ∧
    (wrapperRun c1Dec c1Env).result =
      .error (.pyError "TypeError in estimate_cost during end_span") ∧
    (wrapperRun c1Dec c1Env).sendCalls = [] := by
  decide

/-- C1 witness: on a concrete healthy environment with a well-typed
response, the wrapper's result is not an SDK error and equals the user
function's value. -/
theorem wrapper_fail_safety_witness :
    (wrapperRun rlDec (rlEnv {} 0)).result ≠ .error (.sdk ()) ∧
    (wrapperRun rlDec (rlEnv {} 0)).result = .ok 1 := by
  have h := wrapper_fail_safety rlDec (rlEnv {} 0)
  refine ⟨h.1 (), ?_⟩
  have hwt : harvestWellTyped rlDec (rlEnv {} 0) := by
    intro r hr
    cases hr
    exact ⟨rfl, rfl, rfl⟩
  have hres := h.2.2.2.2.2.2 hwt (by decide)
  rw [hres]
  rfl

end InvokeLens

